import Mathlib

/-!
# Geek-Rank-Radar scan-execution subsystem: a shallow embedding

This file embeds, in Lean 4, the parts of the Geek-Rank-Radar backend that the
verified claims are about: business-name/phone normalization (`src/utils/text.ts`,
`src/utils/phone.ts`), grid generation (`src/services/grid/gridGenerator.ts`,
`src/utils/geo.ts`), the engine CAPTCHA block policy
(`src/services/engines/BaseEngine.ts`), the business matcher
(`src/services/business/BusinessMatcher.ts`), the scan queue
(`ScanQueue`, latest in-tree revision), and the scan orchestrator task handler and
monitors (`ScanOrchestrator`, latest in-tree revision).

Modelling conventions:
* JavaScript strings are Lean `String`s / `List Char`; regular-expression passes
  are implemented character by character with JS word/space character classes.
* JS `number` values used for coordinates are modelled as `ℚ`;
  `Number.parseFloat(x.toFixed(7))` is modelled as rounding to the nearest
  multiple of `10⁻⁷`. Timestamps (`Date.now()` milliseconds) are `ℕ` parameters.
* Calls into platform builtins (`Math.cos`, `Math.sin`/`atan2` inside
  `haversineDistance`, WHATWG `new URL` inside `normalizeDomain`) are modelled as
  explicit function parameters of the embedded definitions.
* The Prisma store is modelled as in-memory lists of records; `update` on a
  matching id rewrites that record, `{ increment: 1 }` is an atomic `+1`.
* JS truthiness on optional strings (`if (x)`) is `none`/`some ""` falsy.
-/

namespace GeekRankRadar

/-! ## JS character classes and string helpers -/

/-- JS regex `\w` = `[A-Za-z0-9_]`, by code point: `a`–`z` is 97–122,
`A`–`Z` is 65–90, `0`–`9` is 48–57, `_` is 95. -/
def isWordChar (c : Char) : Bool :=
  (97 ≤ c.toNat ∧ c.toNat ≤ 122) ∨ (65 ≤ c.toNat ∧ c.toNat ≤ 90) ∨
    (48 ≤ c.toNat ∧ c.toNat ≤ 57) ∨ c.toNat = 95

/-- JS regex `\s` (the ASCII part): space (32), tab (9), LF (10), VT (11),
FF (12), CR (13). -/
def isSpaceChar (c : Char) : Bool :=
  c.toNat = 32 ∨ (9 ≤ c.toNat ∧ c.toNat ≤ 13)

/-- JS truthiness of an optional string: `null`/`undefined` and `""` are falsy. -/
def truthy : Option String → Bool
  | none => false
  | some s => s ≠ ""

/-! ## `src/utils/text.ts` -/

/-- The alternation of `/\b(llc|inc|corp|ltd|co|company|corporation|incorporated|limited)\b/`,
in JS alternation order. -/
def legalSuffixes : List (List Char) :=
  [String.toList "llc", String.toList "inc", String.toList "corp",
   String.toList "ltd", String.toList "co", String.toList "company",
   String.toList "corporation", String.toList "incorporated", String.toList "limited"]

/-- Word boundary `\b` after a match: end of input, or a non-word character. -/
def boundaryAfter (cs : List Char) : Bool :=
  match cs with
  | [] => true
  | c :: _ => ¬ isWordChar c

/-- Try the suffix alternation at the current position (a `\b` is known to hold
before it): the first alternative that matches the upcoming characters and is
followed by a word boundary wins, as in JS regex backtracking. Returns the
length of the match. -/
def suffixMatchLen (cs : List Char) : Option Nat :=
  legalSuffixes.findSome? fun alt =>
    if alt.isPrefixOf cs ∧ boundaryAfter (cs.drop alt.length) then some alt.length
    else none

/-- One global pass of `.replaceAll(/\b(llc|…|limited)\b/g, '')`.
`prevW` records whether the previous input character was a word character
(matches are only attempted where `\b` holds before the alternation; every
alternative starts with a word character, so that means `prevW = false`).
Matching is performed against the input string; matched characters are dropped
from the output and scanning resumes after the match, whose last character is a
word character. -/
def stripSuffixWordsGo : Nat → Bool → List Char → List Char
  | 0, _, cs => cs
  | _ + 1, _, [] => []
  | fuel + 1, prevW, c :: rest =>
    match (if prevW then none else suffixMatchLen (c :: rest)) with
    | some n => stripSuffixWordsGo fuel true (rest.drop (n - 1))
    | none => c :: stripSuffixWordsGo fuel (isWordChar c) rest

def stripSuffixWords (prevW : Bool) (cs : List Char) : List Char :=
  stripSuffixWordsGo (cs.length + 1) prevW cs

/-- One global pass of `.replaceAll(/[^\w\s]/g, '')`. -/
def removeNonWordSpace (cs : List Char) : List Char :=
  cs.filter (fun c => isWordChar c ∨ isSpaceChar c)

/-- One global pass of `.replaceAll(/\s+/g, ' ')`: each maximal run of
whitespace becomes a single space. `prevSpace` records whether the previous
character belonged to a whitespace run already emitted as `' '`. -/
def collapseSpacesGo (prevSpace : Bool) : List Char → List Char
  | [] => []
  | c :: rest =>
    if isSpaceChar c then
      if prevSpace then collapseSpacesGo true rest
      else ' ' :: collapseSpacesGo true rest
    else c :: collapseSpacesGo false rest

def collapseSpaces (cs : List Char) : List Char :=
  collapseSpacesGo false cs

/-- JS `String.prototype.trim`: drop leading and trailing whitespace. -/
def jsTrim (cs : List Char) : List Char :=
  ((cs.dropWhile isSpaceChar).reverse.dropWhile isSpaceChar).reverse

/-- JS `String.prototype.toLowerCase`, modelled per character (ASCII). -/
def jsToLower (cs : List Char) : List Char :=
  cs.map Char.toLower

/-- `normalizeName` from `src/utils/text.ts`:
lowercase, strip legal suffixes, remove punctuation, collapse whitespace, trim. -/
def normalizeName (name : String) : String :=
  String.mk (jsTrim (collapseSpaces (removeNonWordSpace
    (stripSuffixWords false (jsToLower name.toList)))))

/-- Levenshtein distance between two strings, as computed by the dynamic
program in `src/utils/text.ts` (standard unit-cost edit distance); the
recurrence is the DP cell formula, with enough fuel to cover both strings. -/
def levenshteinGo : Nat → List Char → List Char → Nat
  | 0, a, b => a.length + b.length
  | _ + 1, [], b => b.length
  | _ + 1, a, [] => a.length
  | fuel + 1, x :: xs, y :: ys =>
    let cost := if x = y then 0 else 1
    Nat.min (levenshteinGo fuel xs (y :: ys) + 1)
      (Nat.min (levenshteinGo fuel (x :: xs) ys + 1)
        (levenshteinGo fuel xs ys + cost))

def levenshteinDistance (a b : List Char) : Nat :=
  levenshteinGo (a.length + b.length + 1) a b

/-! ## `src/utils/phone.ts` -/

/-- `normalizePhone`: strip non-digits; a 10-digit number gets `+1`, an
11-digit number starting with `1` gets `+`; anything else is `null`.
Falsy input (`null`, `undefined`, `""`) is `null`. -/
def normalizePhone (raw : Option String) : Option String :=
  match raw with
  | none => none
  | some r =>
    if r = "" then none
    else
      let digits := r.toList.filter Char.isDigit
      if digits.length = 10 then some (String.mk ('+' :: '1' :: digits))
      else if digits.length = 11 ∧ digits.head? = some '1' then
        some (String.mk ('+' :: digits))
      else none

/-! ## `src/utils/geo.ts` -/

/-- `milesToLatDegrees`: 1 mile ≈ 1/69 degrees latitude. -/
def milesToLatDegrees (miles : ℚ) : ℚ := miles / 69

/-- `milesToLngDegrees(miles, atLatitude) = miles / (69 * Math.cos(toRad(atLatitude)))`.
`Math.cos(toRad(atLatitude))` is a platform builtin; its value is the explicit
parameter `cosAtLatitude`. -/
def milesToLngDegrees (miles cosAtLatitude : ℚ) : ℚ :=
  miles / (69 * cosAtLatitude)

/-! ## `src/services/grid/gridGenerator.ts` -/

structure GridPoint where
  row : Nat
  col : Nat
  lat : ℚ
  lng : ℚ
  deriving DecidableEq, Repr

/-- `Number.parseFloat(x.toFixed(7))`: round to the nearest multiple of 10⁻⁷. -/
def round7 (q : ℚ) : ℚ := (round (q * 10000000) : ℤ) / 10000000

/-- `generateGrid(centerLat, centerLng, radiusMiles, gridSize)`: an N×N grid of
GPS coordinates covering a square of side `2·radiusMiles`, row 0 at the north
edge, col 0 at the west edge, coordinates rounded to 7 decimal places.
`cosCenterLat` stands for the builtin `Math.cos` applied to the center latitude
(in radians) inside `milesToLngDegrees`. -/
def generateGrid (centerLat centerLng radiusMiles cosCenterLat : ℚ)
    (gridSize : Nat) : List GridPoint :=
  let latSpan := milesToLatDegrees (radiusMiles * 2)
  let lngSpan := milesToLngDegrees (radiusMiles * 2) cosCenterLat
  let startLat := centerLat + latSpan / 2
  let startLng := centerLng - lngSpan / 2
  let latStep := latSpan / ((gridSize : ℚ) - 1)
  let lngStep := lngSpan / ((gridSize : ℚ) - 1)
  (List.range gridSize).flatMap fun row =>
    (List.range gridSize).map fun col =>
      { row := row, col := col,
        lat := round7 (startLat - (row : ℚ) * latStep),
        lng := round7 (startLng + (col : ℚ) * lngStep) }

/-- `GRID_SIZES = [3, 5, 7, 9]`. -/
def GRID_SIZES : List Nat := [3, 5, 7, 9]

/-- `isValidGridSize` from `gridGenerator.ts`. -/
def isValidGridSize (size : Nat) : Bool := GRID_SIZES.contains size

/-! ## `src/config/engines.ts` -/

structure ThrottleConfig where
  minDelayMs : Nat
  maxDelayMs : Nat
  maxPerHour : Nat
  maxPerDay : Nat
  pauseOnCaptchaHours : Nat
  jitterMs : Nat
  backoffOnError : ℚ
  deriving DecidableEq, Repr

structure EngineConfig where
  engineId : String
  engineName : String
  throttle : ThrottleConfig
  isLegitimateApi : Bool
  requiresApiKey : Bool
  apiKeyEnv : Option String := none
  reputationGroup : Option String := none
  deriving DecidableEq, Repr

def engineConfigGoogleSearch : EngineConfig :=
  { engineId := "google_search", engineName := "Google Web Search",
    throttle := { minDelayMs := 8000, maxDelayMs := 18000, maxPerHour := 40,
                  maxPerDay := 200, pauseOnCaptchaHours := 24, jitterMs := 500,
                  backoffOnError := 2 },
    isLegitimateApi := false, requiresApiKey := false,
    reputationGroup := some "google" }

def engineConfigGoogleMaps : EngineConfig :=
  { engineId := "google_maps", engineName := "Google Maps",
    throttle := { minDelayMs := 8000, maxDelayMs := 18000, maxPerHour := 40,
                  maxPerDay := 200, pauseOnCaptchaHours := 24, jitterMs := 500,
                  backoffOnError := 2 },
    isLegitimateApi := false, requiresApiKey := false,
    reputationGroup := some "google" }

def engineConfigGoogleLocal : EngineConfig :=
  { engineId := "google_local", engineName := "Google Local Finder",
    throttle := { minDelayMs := 8000, maxDelayMs := 18000, maxPerHour := 40,
                  maxPerDay := 200, pauseOnCaptchaHours := 24, jitterMs := 500,
                  backoffOnError := 2 },
    isLegitimateApi := false, requiresApiKey := false,
    reputationGroup := some "google" }

def engineConfigBingApi : EngineConfig :=
  { engineId := "bing_api", engineName := "Bing Web Search API",
    throttle := { minDelayMs := 1000, maxDelayMs := 3000, maxPerHour := 200,
                  maxPerDay := 900, pauseOnCaptchaHours := 0, jitterMs := 200,
                  backoffOnError := 3/2 },
    isLegitimateApi := true, requiresApiKey := true,
    apiKeyEnv := some "BING_SEARCH_API_KEY" }

def engineConfigBingLocal : EngineConfig :=
  { engineId := "bing_local", engineName := "Bing Local / Places",
    throttle := { minDelayMs := 5000, maxDelayMs := 12000, maxPerHour := 60,
                  maxPerDay := 300, pauseOnCaptchaHours := 12, jitterMs := 500,
                  backoffOnError := 2 },
    isLegitimateApi := false, requiresApiKey := false }

def engineConfigDuckduckgo : EngineConfig :=
  { engineId := "duckduckgo", engineName := "DuckDuckGo",
    throttle := { minDelayMs := 8000, maxDelayMs := 15000, maxPerHour := 60,
                  maxPerDay := 300, pauseOnCaptchaHours := 1, jitterMs := 500,
                  backoffOnError := 2 },
    isLegitimateApi := false, requiresApiKey := false }

def engineConfigGooglePlacesApi : EngineConfig :=
  { engineId := "google_places_api", engineName := "Google Places API",
    throttle := { minDelayMs := 200, maxDelayMs := 500, maxPerHour := 500,
                  maxPerDay := 5000, pauseOnCaptchaHours := 0, jitterMs := 200,
                  backoffOnError := 3/2 },
    isLegitimateApi := true, requiresApiKey := true,
    apiKeyEnv := some "GOOGLE_PLACES_API_KEY" }

/-- `ENGINE_CONFIGS`, keyed by engine id. -/
def ENGINE_CONFIGS : List (String × EngineConfig) :=
  [("google_search", engineConfigGoogleSearch),
   ("google_maps", engineConfigGoogleMaps),
   ("google_local", engineConfigGoogleLocal),
   ("bing_api", engineConfigBingApi),
   ("bing_local", engineConfigBingLocal),
   ("duckduckgo", engineConfigDuckduckgo),
   ("google_places_api", engineConfigGooglePlacesApi)]

/-- `GOOGLE_COMBINED_DAILY_LIMIT = 200` (also in `engines.ts`). -/
def GOOGLE_COMBINED_DAILY_LIMIT : Nat := 200

/-! ## `src/services/engines/BaseEngine.ts` — CAPTCHA block policy

Only the state touched by `markBlocked` is modelled: the private CAPTCHA
window fields plus `blockedUntil`/`status` from `EngineState`. Times are
`Date.now()` milliseconds as `ℕ`. -/

inductive EngineStatus where
  | healthy
  | throttled
  | blocked
  | disabled
  deriving DecidableEq, Repr

structure CaptchaState where
  captchaCount : Nat
  captchaWindowStart : Nat
  blockedUntil : Option Nat
  status : EngineStatus
  deriving DecidableEq, Repr

/-- A freshly constructed engine: `captchaCount = 0`, `captchaWindowStart = 0`
(no window data), healthy, not blocked. -/
def freshCaptchaState : CaptchaState :=
  { captchaCount := 0, captchaWindowStart := 0, blockedUntil := none,
    status := .healthy }

/-- The pause selected by `markBlocked` for the n-th CAPTCHA in the window:
15 minutes, then 2 hours, then 24 hours, in milliseconds. -/
def graduatedPauseMs (captchaCount : Nat) : Nat :=
  if captchaCount = 1 then 15 * 60 * 1000
  else if captchaCount = 2 then 2 * 3600000
  else 24 * 3600000

/-- `markBlocked` from `BaseEngine.ts` (lines 166–203): reset the CAPTCHA
window if more than 24 h have passed since it started, start a window if
there is none, count the event, and block for the graduated pause.
The configured `pauseOnCaptchaHours` is not read anywhere in this method. -/
def markBlocked (now : Nat) (st : CaptchaState) : CaptchaState :=
  let expired := (now : ℤ) - (st.captchaWindowStart : ℤ) > 24 * 3600000
  let count0 := if expired then 0 else st.captchaCount
  let ws0 := if expired then now else st.captchaWindowStart
  let ws1 := if ws0 = 0 then now else ws0
  let count := count0 + 1
  let pauseMs := graduatedPauseMs count
  { st with captchaCount := count, captchaWindowStart := ws1,
            blockedUntil := some (now + pauseMs), status := .blocked }

/-! ## `src/services/business/BusinessMatcher.ts`

The Prisma `Business` table is a list of records; `create` appends a record
with a fresh id from a counter, `update where id` rewrites the record in
place. `findUnique`/`findFirst` return the first record satisfying the
condition, `findMany` filters. `haversineDistance` (trigonometric builtins)
and `normalizeDomain` (WHATWG URL builtin) are passed as function
parameters `dist` and `normDomain`. Timestamps `new Date()` are the `now`
parameter. -/

structure ParsedBusiness where
  name : String
  address : Option String := none
  phone : Option String := none
  website : Option String := none
  city : Option String := none
  state : Option String := none
  zip : Option String := none
  lat : Option ℚ := none
  lng : Option ℚ := none
  rating : Option ℚ := none
  reviewCount : Option Nat := none
  googlePlaceId : Option String := none
  googleCid : Option String := none
  googleMapsUrl : Option String := none
  bingPlaceId : Option String := none
  primaryType : Option String := none
  types : List String := []
  description : Option String := none
  priceLevel : Option Nat := none
  hours : Option String := none
  attributes : Option String := none
  serviceOptions : Option String := none
  menuUrl : Option String := none
  orderUrl : Option String := none
  reservationUrl : Option String := none
  resultType : String := "organic"
  rankPosition : Nat := 1
  snippet : Option String := none
  deriving DecidableEq, Repr

/-- A `Business` row. JSON-valued columns (`hours`, `attributes`,
`serviceOptions`) are opaque string payloads here. -/
structure Business where
  id : Nat
  name : String
  normalizedName : String
  phone : Option String := none
  website : Option String := none
  address : Option String := none
  city : Option String := none
  state : Option String := none
  zip : Option String := none
  lat : Option ℚ := none
  lng : Option ℚ := none
  categoryId : Option String := none
  primaryType : Option String := none
  types : List String := []
  googlePlaceId : Option String := none
  googleCid : Option String := none
  googleMapsUrl : Option String := none
  bingPlaceId : Option String := none
  googleRating : Option ℚ := none
  googleReviewCount : Option Nat := none
  bingRating : Option ℚ := none
  bingReviewCount : Option Nat := none
  description : Option String := none
  priceLevel : Option Nat := none
  hours : Option String := none
  attributes : Option String := none
  serviceOptions : Option String := none
  menuUrl : Option String := none
  orderUrl : Option String := none
  reservationUrl : Option String := none
  firstSeenAt : Nat
  lastSeenAt : Nat
  deriving DecidableEq, Repr

inductive MatchType where
  | googlePlaceId
  | normalizedNameLocation
  | phone
  | fuzzyNamePhone
  | websiteDomain
  | new
  deriving DecidableEq, Repr

structure BusinessMatch where
  businessId : Nat
  confidence : Nat
  matchType : MatchType
  deriving DecidableEq, Repr

/-- The spec's `createdNew` component of a Resolve result: the source signals
creation through `matchType == "new"` (confidence 0). -/
def BusinessMatch.createdNew (m : BusinessMatch) : Bool :=
  m.matchType = MatchType.new

/-- The business table plus the id generator. -/
structure MatcherDb where
  businesses : List Business
  nextId : Nat
  deriving DecidableEq, Repr

/-- Prisma `city: { equals: parsed.city, mode: 'insensitive' }`. -/
def cityEqCI (rowCity : Option String) (queryCity : Option String) : Bool :=
  match rowCity, queryCity with
  | some a, some b => a.toLower = b.toLower
  | _, _ => false

/-- `updateLastSeen` (BusinessMatcher.ts lines 162–198): set `lastSeenAt` and
merge fields carried by the parsed result. -/
def updateLastSeen (b : Business) (parsed : ParsedBusiness) (engineId : String)
    (now : Nat) : Business :=
  let isBing := engineId.startsWith "bing"
  { b with
    lastSeenAt := now,
    phone := if truthy parsed.phone ∧ ¬isBing then normalizePhone parsed.phone
             else b.phone,
    website := if truthy parsed.website then parsed.website else b.website,
    googlePlaceId := if truthy parsed.googlePlaceId then parsed.googlePlaceId
                     else b.googlePlaceId,
    bingPlaceId := if truthy parsed.bingPlaceId then parsed.bingPlaceId
                   else b.bingPlaceId,
    lat := if parsed.lat.isSome ∧ parsed.lng.isSome then parsed.lat else b.lat,
    lng := if parsed.lat.isSome ∧ parsed.lng.isSome then parsed.lng else b.lng,
    bingRating := if parsed.rating.isSome ∧ isBing then parsed.rating
                  else b.bingRating,
    bingReviewCount := if parsed.rating.isSome ∧ isBing then parsed.reviewCount
                       else b.bingReviewCount,
    googleRating := if parsed.rating.isSome ∧ ¬isBing then parsed.rating
                    else b.googleRating,
    googleReviewCount := if parsed.rating.isSome ∧ ¬isBing then parsed.reviewCount
                         else b.googleReviewCount }

/-- `updateLastSeen` applied through `prisma.business.update where id`. -/
def updateLastSeenDb (db : MatcherDb) (businessId : Nat) (parsed : ParsedBusiness)
    (engineId : String) (now : Nat) : MatcherDb :=
  { db with businesses := db.businesses.map fun b =>
      if b.id = businessId then updateLastSeen b parsed engineId now else b }

/-- `createBusiness` (BusinessMatcher.ts lines 113–157). -/
def createBusiness (db : MatcherDb) (parsed : ParsedBusiness)
    (normalizedName : String) (phone : Option String) (engineId : String)
    (categoryId : Option String) (now : Nat) : Business × MatcherDb :=
  let isBing := engineId.startsWith "bing"
  let bus : Business :=
    { id := db.nextId, name := parsed.name, normalizedName := normalizedName,
      phone := phone, website := parsed.website, address := parsed.address,
      city := parsed.city, state := parsed.state, zip := parsed.zip,
      lat := parsed.lat, lng := parsed.lng, categoryId := categoryId,
      primaryType := parsed.primaryType, types := parsed.types,
      googlePlaceId := parsed.googlePlaceId, googleCid := parsed.googleCid,
      googleMapsUrl := parsed.googleMapsUrl, bingPlaceId := parsed.bingPlaceId,
      googleRating := if ¬isBing then parsed.rating else none,
      googleReviewCount := if ¬isBing then parsed.reviewCount else none,
      bingRating := if isBing then parsed.rating else none,
      bingReviewCount := if isBing then parsed.reviewCount else none,
      description := parsed.description, priceLevel := parsed.priceLevel,
      hours := parsed.hours, attributes := parsed.attributes,
      serviceOptions := parsed.serviceOptions, menuUrl := parsed.menuUrl,
      orderUrl := parsed.orderUrl, reservationUrl := parsed.reservationUrl,
      firstSeenAt := now, lastSeenAt := now }
  (bus, { businesses := db.businesses ++ [bus], nextId := db.nextId + 1 })

/-- `findOrCreate` (BusinessMatcher.ts lines 21–111): the five-tier matching
cascade. -/
def findOrCreate (dist : ℚ → ℚ → ℚ → ℚ → ℚ)
    (normDomain : Option String → Option String) (now : Nat) (db : MatcherDb)
    (parsed : ParsedBusiness) (engineId : String) (categoryId : Option String) :
    BusinessMatch × MatcherDb :=
  let normalized := normalizeName parsed.name
  -- 1. Exact Google Place ID match (100% confidence)
  let tier1 : Option Business :=
    if truthy parsed.googlePlaceId then
      db.businesses.find? fun b => b.googlePlaceId = parsed.googlePlaceId
    else none
  match tier1 with
  | some existing =>
    (⟨existing.id, 100, .googlePlaceId⟩,
     updateLastSeenDb db existing.id parsed engineId now)
  | none =>
    -- 2. Phone number match (90% confidence)
    let normalizedPhone := normalizePhone parsed.phone
    let tier2 : Option Business :=
      match normalizedPhone with
      | none => none
      | some np => db.businesses.find? fun b => b.phone = some np
    match tier2 with
    | some phoneMatch =>
      (⟨phoneMatch.id, 90, .phone⟩,
       updateLastSeenDb db phoneMatch.id parsed engineId now)
    | none =>
      -- 3. Normalized name + location within 50m ≈ 0.031 miles (95%)
      let tier3 : Option Business :=
        match parsed.lat, parsed.lng with
        | some plat, some plng =>
          (db.businesses.filter fun b => b.normalizedName = normalized).find?
            fun c =>
              match c.lat, c.lng with
              | some cl, some cg => dist cl cg plat plng < 31/1000
              | _, _ => false
        | _, _ => none
      match tier3 with
      | some candidate =>
        (⟨candidate.id, 95, .normalizedNameLocation⟩,
         updateLastSeenDb db candidate.id parsed engineId now)
      | none =>
        -- 3.5. Fuzzy name + phone (85%)
        let tier35 : Option Business :=
          match normalizedPhone with
          | none => none
          | some np =>
            (db.businesses.filter fun b => b.phone = some np).find? fun c =>
              c.normalizedName ≠ "" ∧
                levenshteinDistance normalized.toList c.normalizedName.toList ≤ 3
        match tier35 with
        | some candidate =>
          (⟨candidate.id, 85, .fuzzyNamePhone⟩,
           updateLastSeenDb db candidate.id parsed engineId now)
        | none =>
          -- 4. Website domain match + same city (80%)
          let parsedDomain := normDomain parsed.website
          let tier4 : Option Business :=
            if truthy parsedDomain ∧ truthy parsed.city then
              (db.businesses.filter fun b =>
                  cityEqCI b.city parsed.city ∧ b.website.isSome).find? fun c =>
                normDomain c.website = parsedDomain
            else none
          match tier4 with
          | some candidate =>
            (⟨candidate.id, 80, .websiteDomain⟩,
             updateLastSeenDb db candidate.id parsed engineId now)
          | none =>
            -- 5. No match — create new business
            let created :=
              createBusiness db parsed normalized normalizedPhone engineId
                categoryId now
            (⟨created.1.id, 0, .new⟩, created.2)

/-! ## `ScanQueue` (latest in-tree revision: event-driven, per-engine queues)

Per-engine queues are an association list keyed by engine id; registration
inserts an id with an empty queue (the `engines` map has the same keys by
construction, so a queue exists exactly when the engine is registered).
Record ids are `ℕ`. -/

inductive ScanStatus where
  | pending
  | queued
  | running
  | completed
  | failed
  | cancelled
  deriving DecidableEq, Repr

inductive ScanPointStatus where
  | pending
  | completed
  | failed
  deriving DecidableEq, Repr

structure ScanTask where
  scanId : Nat
  scanPointId : Nat
  engineId : String
  query : String
  point : GridPoint
  priority : Int
  city : Option String := none
  state : Option String := none
  deriving DecidableEq, Repr

/-- `GOOGLE_ENGINE_IDS` (ScanQueue.ts / ScanOrchestrator.ts). -/
def GOOGLE_ENGINE_IDS : List String := ["google_search", "google_maps", "google_local"]

def isGoogleEngine (engineId : String) : Bool :=
  GOOGLE_ENGINE_IDS.contains engineId

structure ScanQueueState where
  queues : List (String × List ScanTask)
  processingEngines : List String
  stopped : Bool
  deriving DecidableEq, Repr

def getQueue (st : ScanQueueState) (engineId : String) : Option (List ScanTask) :=
  (st.queues.find? fun q => q.1 = engineId).map (·.2)

def setQueue (st : ScanQueueState) (engineId : String) (q : List ScanTask) :
    ScanQueueState :=
  { st with queues := st.queues.map fun e => if e.1 = engineId then (e.1, q) else e }

/-- `queue.sort((a, b) => b.priority - a.priority)`: stable sort, higher
priority first (ES2019 `Array.prototype.sort` is stable). -/
def sortByPriorityDesc (q : List ScanTask) : List ScanTask :=
  q.mergeSort fun a b => b.priority ≤ a.priority

/-- `ScanQueue.enqueue`: push into the engine's queue and re-sort by priority;
a task whose engine has no queue is dropped with a log line. -/
def ScanQueue.enqueue (st : ScanQueueState) (task : ScanTask) : ScanQueueState :=
  match getQueue st task.engineId with
  | none => st
  | some q => setQueue st task.engineId (sortByPriorityDesc (q ++ [task]))

def ScanQueue.enqueueBatch (st : ScanQueueState) (tasks : List ScanTask) :
    ScanQueueState :=
  tasks.foldl ScanQueue.enqueue st

def getQueueDepth (st : ScanQueueState) (engineId : String) : Nat :=
  ((getQueue st engineId).map List.length).getD 0

def getTotalDepth (st : ScanQueueState) : Nat :=
  (st.queues.map fun q => q.2.length).sum

/-- The body of `processEngine`'s `while` loop, with the engine's time-varying
environment supplied as oracles indexed by the loop iteration: `canReq i` is
`engine.canMakeRequest()` at iteration `i`, `googleTotal i` the value returned
by the injected `googleLimitChecker` (installed by the orchestrator), and
`stopped i` the `stopped` flag. Returns the tasks handed to the task handler,
in order (handler errors are swallowed by the loop and do not affect it). -/
def processEngineLoop (engineId : String) (canReq : Nat → Bool)
    (googleTotal : Nat → Nat) (stopped : Nat → Bool) :
    List ScanTask → Nat → List ScanTask
  | [], _ => []
  | t :: rest, i =>
    if stopped i then []
    else if ¬ canReq i then []
    else if isGoogleEngine engineId ∧ googleTotal i ≥ GOOGLE_COMBINED_DAILY_LIMIT then []
    else t :: processEngineLoop engineId canReq googleTotal stopped rest (i + 1)

/-! ## `ScanOrchestrator` (latest in-tree revision) -/

/-- `getGoogleDailyTotal` (ScanOrchestrator): sum of `requestsToday` over the
registered engines of the Google group (`requestsToday e = none` when engine
`e` is not registered). -/
def getGoogleDailyTotal (requestsToday : String → Option Nat) : Nat :=
  (GOOGLE_ENGINE_IDS.map fun e => (requestsToday e).getD 0).sum

structure ServiceArea where
  id : String
  name : String
  state : String
  centerLat : ℚ
  centerLng : ℚ
  radiusMiles : ℚ
  isActive : Bool
  deriving DecidableEq, Repr

structure Category where
  id : String
  name : String
  slug : String
  isActive : Bool
  deriving DecidableEq, Repr

structure ScanRec where
  id : Nat
  serviceAreaId : String
  categoryId : Option String
  keyword : String
  searchEngine : String
  gridSize : Nat
  radiusMiles : ℚ
  status : ScanStatus
  pointsTotal : Nat
  pointsCompleted : Nat
  errorMessage : Option String := none
  startedAt : Option Nat := none
  completedAt : Option Nat := none
  deriving DecidableEq, Repr

structure ScanPointRec where
  id : Nat
  scanId : Nat
  gridRow : Nat
  gridCol : Nat
  lat : ℚ
  lng : ℚ
  status : ScanPointStatus
  deriving DecidableEq, Repr

structure RankingRec where
  scanPointId : Nat
  businessId : Nat
  rankPosition : Nat
  resultType : String
  snippet : Option String
  deriving DecidableEq, Repr

structure SnapshotRec where
  businessId : Nat
  source : String
  rating : ℚ
  reviewCount : Nat
  deriving DecidableEq, Repr

/-- The relational store seen by the orchestrator and the matcher. -/
structure OrchDb where
  businesses : MatcherDb
  serviceAreas : List ServiceArea := []
  categories : List Category := []
  scans : List ScanRec := []
  scanPoints : List ScanPointRec := []
  rankings : List RankingRec := []
  snapshots : List SnapshotRec := []
  nextScanId : Nat := 0
  nextPointId : Nat := 0
  deriving DecidableEq, Repr

/-- `SERPResult` as consumed by `executeTask` (only `businesses` is read). -/
structure SERPResult where
  engineId : String
  query : String
  businesses : List ParsedBusiness
  captchaDetected : Bool := false
  deriving DecidableEq, Repr

def getScan (db : OrchDb) (scanId : Nat) : Option ScanRec :=
  db.scans.find? fun s => s.id = scanId

def getScanPoint (db : OrchDb) (pointId : Nat) : Option ScanPointRec :=
  db.scanPoints.find? fun p => p.id = pointId

/-- `prisma.scanPoint.update({ where: { id }, data: { status } })`. -/
def setScanPointStatus (db : OrchDb) (pointId : Nat) (s : ScanPointStatus) :
    OrchDb :=
  { db with scanPoints := db.scanPoints.map fun p =>
      if p.id = pointId then { p with status := s } else p }

/-- `prisma.scan.update({ where: { id }, data: { pointsCompleted: { increment: 1 } } })`:
the counter update is an atomic increment pushed to the store. -/
def incrementPointsCompleted (db : OrchDb) (scanId : Nat) : OrchDb :=
  { db with scans := db.scans.map fun s =>
      if s.id = scanId then { s with pointsCompleted := s.pointsCompleted + 1 } else s }

/-- `processBusinessResult` (ScanOrchestrator): resolve the parsed business,
record a ranking, and record a review snapshot when both rating and review
count are present. -/
def processBusinessResult (dist : ℚ → ℚ → ℚ → ℚ → ℚ)
    (normDomain : Option String → Option String) (db : OrchDb) (task : ScanTask)
    (parsed : ParsedBusiness) (categoryId : Option String) (now : Nat) : OrchDb :=
  let r :=
    findOrCreate dist normDomain now db.businesses parsed task.engineId categoryId
  let db := { db with
    businesses := r.2,
    rankings := db.rankings ++
      [{ scanPointId := task.scanPointId, businessId := r.1.businessId,
         rankPosition := parsed.rankPosition, resultType := parsed.resultType,
         snippet := parsed.snippet }] }
  if parsed.rating.isSome ∧ parsed.reviewCount.isSome then
    { db with snapshots := db.snapshots ++
        [{ businessId := r.1.businessId,
           source := if task.engineId.startsWith "bing" then "bing" else "google",
           rating := parsed.rating.getD 0,
           reviewCount := parsed.reviewCount.getD 0 }] }
  else db

/-- `executeTask` (the task handler installed into the queue). The outcome of
`engine.search(...)` is the `searchOutcome` parameter: `.ok` a parsed result,
`.error` a raised error. When the task's engine is not registered the handler
throws before touching the store (state unchanged; the queue logs the
rejection). On success every parsed business is processed, the point is marked
`completed` and the counter incremented; if the search raised, the point is
marked `failed` and the counter is still incremented. -/
def executeTask (dist : ℚ → ℚ → ℚ → ℚ → ℚ)
    (normDomain : Option String → Option String) (registeredEngines : List String)
    (db : OrchDb) (task : ScanTask) (searchOutcome : Except String SERPResult)
    (now : Nat) : OrchDb :=
  if ¬ registeredEngines.contains task.engineId then db
  else
    match searchOutcome with
    | .ok result =>
      let categoryId := (getScan db task.scanId).bind (·.categoryId)
      let db1 := result.businesses.foldl
        (fun d biz => processBusinessResult dist normDomain d task biz categoryId now) db
      incrementPointsCompleted (setScanPointStatus db1 task.scanPointId .completed)
        task.scanId
    | .error _ =>
      incrementPointsCompleted (setScanPointStatus db task.scanPointId .failed)
        task.scanId

/-- A full run of the handler over a batch of tasks with their search
outcomes, as the queue worker would deliver them. -/
def runTasks (dist : ℚ → ℚ → ℚ → ℚ → ℚ)
    (normDomain : Option String → Option String) (registeredEngines : List String)
    (db : OrchDb) (jobs : List (ScanTask × Except String SERPResult)) (now : Nat) :
    OrchDb :=
  jobs.foldl (fun d j => executeTask dist normDomain registeredEngines d j.1 j.2 now) db

/-- One poll of `monitorScan` (the decision applied to the re-read scan row):
`some (status, errorMessage)` when the scan is frozen this cycle, `none` when
polling continues. -/
def monitorScanDecision (scan : ScanRec) (queueDepth : Nat)
    (isEngineProcessing hasRetry : Bool) : Option (ScanStatus × Option String) :=
  if scan.pointsCompleted ≥ scan.pointsTotal then some (.completed, none)
  else if queueDepth = 0 ∧ ¬ isEngineProcessing ∧ ¬ hasRetry then
    let finalStatus : ScanStatus :=
      if scan.pointsCompleted ≥ scan.pointsTotal then .completed else .failed
    some (finalStatus,
      if finalStatus = ScanStatus.failed then
        some ("Only " ++ toString scan.pointsCompleted ++ "/" ++
          toString scan.pointsTotal ++ " points completed")
      else none)
  else none

structure CreateScanRequest where
  serviceAreaId : String
  categoryId : String
  keyword : String
  searchEngine : String
  gridSize : Option Nat := none
  deriving DecidableEq, Repr

/-- `createScanRecord` (ScanOrchestrator): validate that the service area, the
category and the engine exist, persist the Scan, generate and persist the grid
points, build the per-point tasks (handed to `queue.enqueueBatch`, modelled
separately), and mark the scan running. Throws (`.error`) exactly where the
source does. `cosCenterLat` stands for `Math.cos` at the area's center
latitude inside grid generation. -/
def createScanRecord (cosCenterLat : ℚ) (registeredEngines : List String)
    (db : OrchDb) (request : CreateScanRequest) (now : Nat) :
    Except String (Nat × OrchDb × List ScanTask) :=
  match db.serviceAreas.find? fun a => a.id = request.serviceAreaId with
  | none => .error ("Service area " ++ request.serviceAreaId ++ " not found")
  | some serviceArea =>
    match db.categories.find? fun c => c.id = request.categoryId with
    | none => .error ("Category " ++ request.categoryId ++ " not found")
    | some category =>
      if ¬ registeredEngines.contains request.searchEngine then
        .error ("Engine " ++ request.searchEngine ++ " not available")
      else
        let gridSize := request.gridSize.getD 7
        let scan : ScanRec :=
          { id := db.nextScanId, serviceAreaId := serviceArea.id,
            categoryId := some category.id, keyword := request.keyword,
            searchEngine := request.searchEngine, gridSize := gridSize,
            radiusMiles := serviceArea.radiusMiles, status := .queued,
            pointsTotal := gridSize * gridSize, pointsCompleted := 0 }
        let gridPoints := generateGrid serviceArea.centerLat serviceArea.centerLng
          serviceArea.radiusMiles cosCenterLat gridSize
        let basePointId := db.nextPointId
        let scanPoints := gridPoints.enum.map fun ip =>
          { id := basePointId + ip.1, scanId := scan.id, gridRow := ip.2.row,
            gridCol := ip.2.col, lat := ip.2.lat, lng := ip.2.lng,
            status := ScanPointStatus.pending }
        let tasks : List ScanTask := gridPoints.enum.map fun ip =>
          { scanId := scan.id, scanPointId := basePointId + ip.1,
            engineId := request.searchEngine, query := request.keyword,
            point := ip.2, priority := 1, city := some serviceArea.name,
            state := some serviceArea.state }
        let runningScan : ScanRec :=
          { scan with status := ScanStatus.running, startedAt := some now }
        let dbOut : OrchDb :=
          { db with
            scans := db.scans ++ [runningScan],
            scanPoints := db.scanPoints ++ scanPoints,
            nextScanId := db.nextScanId + 1,
            nextPointId := basePointId + gridPoints.length }
        .ok (scan.id, dbOut, tasks)

/-! ## The deployed ScanQueue's pause/retry behavior

Modelled from the spec: the `ScanQueue` revision actually constructed by the
orchestrator exposes `hasRetryTimer` (the orchestrator's monitors call
`this.queue.hasRetryTimer(scan.searchEngine)`), but no source file under the
tree defines it — the in-tree `ScanQueue` revision embedded above is an
earlier draft without retry timers. The worker-loop pause handling and the
retry timer are therefore modelled from spec §4.4: on pausing (engine not
healthy, or Google-group cap) with a non-empty queue and the queue not
stopped, a one-shot 60 s retry timer is scheduled whose firing calls
`EnsureProcessing`. -/

inductive PauseReason where
  | engineUnhealthy
  | dailyGroupCap
  deriving DecidableEq, Repr

structure SpecQueueState where
  queues : List (String × List ScanTask)
  processingEngines : List String
  retryTimers : List (String × Nat)
  stopped : Bool
  deriving DecidableEq, Repr

def specGetQueue (st : SpecQueueState) (engineId : String) :
    Option (List ScanTask) :=
  (st.queues.find? fun q => q.1 = engineId).map (·.2)

def specSetQueue (st : SpecQueueState) (engineId : String) (q : List ScanTask) :
    SpecQueueState :=
  { st with queues := st.queues.map fun e => if e.1 = engineId then (e.1, q) else e }

def specHasRetryTimer (st : SpecQueueState) (engineId : String) : Bool :=
  (st.retryTimers.find? fun t => t.1 = engineId).isSome

/-- Modelled from the spec: `EnsureProcessing` — start a worker for each
engine whose queue is non-empty and whose worker is idle. -/
def specEnsureProcessing (st : SpecQueueState) : SpecQueueState :=
  { st with processingEngines := st.processingEngines ++
      (st.queues.filter fun q =>
        q.2 ≠ [] ∧ ¬ st.processingEngines.contains q.1).map (·.1) }

/-- Modelled from the spec: the worker loop for one engine. Returns the
remaining queue, the dispatched tasks and the pause reason (if the loop broke
before draining the queue). Oracles as in `processEngineLoop`. -/
def specWorkerLoopGo (engineId : String) (canReq : Nat → Bool)
    (googleTotal : Nat → Nat) (stopped : Bool) :
    List ScanTask → Nat → List ScanTask × List ScanTask × Option PauseReason
  | [], _ => ([], [], none)
  | t :: rest, i =>
    if stopped then (t :: rest, [], none)
    else if ¬ canReq i then (t :: rest, [], some .engineUnhealthy)
    else if isGoogleEngine engineId ∧ googleTotal i ≥ GOOGLE_COMBINED_DAILY_LIMIT then
      (t :: rest, [], some .dailyGroupCap)
    else
      let r := specWorkerLoopGo engineId canReq googleTotal stopped rest (i + 1)
      (r.1, t :: r.2.1, r.2.2)

/-- Modelled from the spec: the one-shot retry delay (60 s). -/
def RETRY_DELAY_MS : Nat := 60000

/-- Modelled from the spec: a full worker run for one engine — run the loop,
write back the remaining queue, release the worker, and, if the loop paused
while tasks remain and the queue is not stopped, schedule the one-shot retry
timer to fire `RETRY_DELAY_MS` after `now`. Returns the new state and the
dispatched tasks. -/
def specWorkerRun (st : SpecQueueState) (engineId : String) (canReq : Nat → Bool)
    (googleTotal : Nat → Nat) (now : Nat) : SpecQueueState × List ScanTask :=
  match specGetQueue st engineId with
  | none =>
    ({ st with processingEngines := st.processingEngines.filter (· ≠ engineId) }, [])
  | some q =>
    let r := specWorkerLoopGo engineId canReq googleTotal st.stopped q 0
    let st1 := specSetQueue st engineId r.1
    let st2 := { st1 with
      processingEngines := st1.processingEngines.filter (· ≠ engineId) }
    let st3 :=
      if r.2.2.isSome ∧ r.1 ≠ [] ∧ ¬ st.stopped then
        { st2 with retryTimers := st2.retryTimers ++ [(engineId, now + RETRY_DELAY_MS)] }
      else st2
    (st3, r.2.1)

/-- Modelled from the spec: the retry timer fires — the one-shot entry is
removed and `EnsureProcessing` is called. -/
def fireRetryTimer (st : SpecQueueState) (engineId : String) : SpecQueueState :=
  specEnsureProcessing
    { st with retryTimers := st.retryTimers.filter fun t => t.1 ≠ engineId }

/-! ## Analysis helpers for `normalizeName`

`pipelineNoLower` is the tail of `normalizeName` after the lowercasing step;
`normalizeName s = String.mk (pipelineNoLower (jsToLower s.toList))` by
definition. `joinSpaced` and `canonWords` describe the canonical shape of a
normalized name: non-empty lowercase words, none a legal suffix token, joined
by single spaces. -/

def pipelineNoLower (l : List Char) : List Char :=
  jsTrim (collapseSpaces (removeNonWordSpace (stripSuffixWords false l)))

def joinSpaced : List (List Char) → List Char
  | [] => []
  | [w] => w
  | w :: ws => w ++ ' ' :: joinSpaced ws

def canonWords (ws : List (List Char)) : Prop :=
  ∀ w ∈ ws, w ≠ [] ∧ (∀ c ∈ w, isWordChar c = true ∧ Char.toLower c = c) ∧
    w ∉ legalSuffixes

def trimRight (l : List Char) : List Char :=
  (l.reverse.dropWhile isSpaceChar).reverse

/-! # Theorems -/

/-- C9 counterexample: business-name normalization is not idempotent.
Removing punctuation can create a fresh legal-suffix token: in `"c.o"` no
suffix token matches (the characters `c`, `.`, `o` contain no `co` substring),
so the first pass only strips the dot, yielding `"co"` — which the second pass
strips entirely. -/
theorem c9_counterexample :
    normalizeName "c.o" = "co" ∧ normalizeName (normalizeName "c.o") = "" ∧
    normalizeName (normalizeName "c.o") ≠ normalizeName "c.o" := by
  decide

/-- C4 counterexample: resolving the same parsed business twice does not
always yield the same business id. A parsed business carrying only a name (no
place id, no normalizable phone, no coordinates, no website+city) matches no
tier on the second call either, so a second record is created
(`createdNew` true, a distinct id). -/
theorem c4_counterexample :
    let db0 : MatcherDb := { businesses := [], nextId := 0 }
    let parsed : ParsedBusiness := { name := "Joes Plumbing" }
    let dist : ℚ → ℚ → ℚ → ℚ → ℚ := fun _ _ _ _ => 0
    let nd : Option String → Option String := fun _ => none
    let r1 := findOrCreate dist nd 100 db0 parsed "google_search" none
    let r2 := findOrCreate dist nd 200 r1.2 parsed "google_search" none
    r1.1.businessId = 0 ∧ r2.1.businessId = 1 ∧
    r2.1.businessId ≠ r1.1.businessId ∧ r2.1.createdNew = true := by
  decide

/-- C7 counterexample: on a match hit the matcher does not merge `website`
only when the stored value was previously null — `updateLastSeen` overwrites a
previously non-null website (likewise place ids and coordinates) whenever the
parsed result carries one. -/
theorem c7_counterexample :
    let b0 : Business :=
      { id := 0, name := "Joes Pizza",
        normalizedName := "joes pizza", phone := some "+15615551234",
        website := some "https://a.com", lat := some 1, lng := some 2,
        googlePlaceId := some "PX", firstSeenAt := 0, lastSeenAt := 0 }
    let parsed : ParsedBusiness :=
      { name := "Joes Pizza",
        website := some "https://b.com", googlePlaceId := some "PY",
        lat := some 3, lng := some 4 }
    let u := updateLastSeen b0 parsed "google_search" 10
    b0.website = some "https://a.com" ∧ u.website = some "https://b.com" ∧
    b0.googlePlaceId = some "PX" ∧ u.googlePlaceId = some "PY" ∧
    b0.lat = some 1 ∧ u.lat = some 3 := by
  decide

/-- C7 amended: on a match hit `updateLastSeen` sets `lastSeenAt` to now;
merges the phone only for non-Bing engines (when the parsed result carries a
truthy phone, storing its normalization); overwrites website, place ids and
coordinates whenever the parsed result carries them, regardless of the stored
value; refreshes the per-engine rating and review count when the parsed result
carries a rating; and leaves name, normalizedName, firstSeenAt, address, city,
state, zip and categoryId unchanged. -/
theorem c7_update_merge_frame (b : Business) (parsed : ParsedBusiness)
    (engineId : String) (now : Nat) :
    let u := updateLastSeen b parsed engineId now
    let isBing := engineId.startsWith "bing"
    u.name = b.name ∧ u.normalizedName = b.normalizedName ∧
    u.firstSeenAt = b.firstSeenAt ∧ u.address = b.address ∧ u.city = b.city ∧
    u.state = b.state ∧ u.zip = b.zip ∧ u.categoryId = b.categoryId ∧
    u.lastSeenAt = now ∧
    (isBing = true → u.phone = b.phone) ∧
    (truthy parsed.phone = false → u.phone = b.phone) ∧
    (truthy parsed.phone = true → isBing = false →
      u.phone = normalizePhone parsed.phone) ∧
    (truthy parsed.website = true → u.website = parsed.website) ∧
    (truthy parsed.website = false → u.website = b.website) ∧
    (truthy parsed.googlePlaceId = true → u.googlePlaceId = parsed.googlePlaceId) ∧
    (truthy parsed.googlePlaceId = false → u.googlePlaceId = b.googlePlaceId) ∧
    (truthy parsed.bingPlaceId = true → u.bingPlaceId = parsed.bingPlaceId) ∧
    (truthy parsed.bingPlaceId = false → u.bingPlaceId = b.bingPlaceId) ∧
    (parsed.lat.isSome = true → parsed.lng.isSome = true →
      u.lat = parsed.lat ∧ u.lng = parsed.lng) ∧
    ((parsed.lat.isSome ∧ parsed.lng.isSome) = false →
      u.lat = b.lat ∧ u.lng = b.lng) ∧
    (parsed.rating.isSome = true → isBing = true →
      u.bingRating = parsed.rating ∧ u.bingReviewCount = parsed.reviewCount ∧
      u.googleRating = b.googleRating ∧ u.googleReviewCount = b.googleReviewCount) ∧
    (parsed.rating.isSome = true → isBing = false →
      u.googleRating = parsed.rating ∧ u.googleReviewCount = parsed.reviewCount ∧
      u.bingRating = b.bingRating ∧ u.bingReviewCount = b.bingReviewCount) ∧
    (parsed.rating.isSome = false →
      u.googleRating = b.googleRating ∧ u.googleReviewCount = b.googleReviewCount ∧
      u.bingRating = b.bingRating ∧ u.bingReviewCount = b.bingReviewCount) := by
  intro u isBing
  and_intros <;> intros <;> simp_all [u, isBing, updateLastSeen]

/-- C7 witness for `c7_update_merge_frame` at a concrete input. -/
theorem c7_update_merge_frame_witness :
    (updateLastSeen
      { id := 0, name := "Joes Pizza", normalizedName := "joes pizza",
        website := some "https://a.com", firstSeenAt := 0, lastSeenAt := 0 }
      { name := "Joes Pizza", website := some "https://b.com" }
      "google_search" 10).website = some "https://b.com" := by
  have h := c7_update_merge_frame
    { id := 0, name := "Joes Pizza", normalizedName := "joes pizza",
      website := some "https://a.com", firstSeenAt := 0, lastSeenAt := 0 }
    { name := "Joes Pizza", website := some "https://b.com" }
    "google_search" 10
  exact h.2.2.2.2.2.2.2.2.2.2.2.2.1 (by decide)

/-- C10: `ScanQueue.enqueue` on a task whose engine has no registered queue is
a silent no-op — the state (hence every per-engine queue and `getTotalDepth`)
is unchanged, no error is raised (the source logs and returns), and the task
can never be delivered since it is stored nowhere. -/
theorem c10_enqueue_unknown_engine (st : ScanQueueState) (task : ScanTask)
    (h : getQueue st task.engineId = none) :
    ScanQueue.enqueue st task = st ∧
    getTotalDepth (ScanQueue.enqueue st task) = getTotalDepth st ∧
    (∀ engineId, getQueue (ScanQueue.enqueue st task) engineId = getQueue st engineId) := by
  have he : ScanQueue.enqueue st task = st := by
    unfold ScanQueue.enqueue
    rw [h]
  exact ⟨he, by rw [he], fun _ => by rw [he]⟩

/-- C10 witness for `c10_enqueue_unknown_engine` at a concrete input. -/
theorem c10_enqueue_unknown_engine_witness :
    let st : ScanQueueState :=
      { queues := [("bing_api", [])], processingEngines := [], stopped := false }
    let task : ScanTask :=
      { scanId := 0, scanPointId := 0,
        engineId := "not_registered", query := "pizza",
        point := { row := 0, col := 0, lat := 0, lng := 0 }, priority := 1 }
    getQueue st task.engineId = none ∧ ScanQueue.enqueue st task = st := by
  refine ⟨by decide, ?_⟩
  exact (c10_enqueue_unknown_engine _ _ (by decide)).1

/-- C3 counterexample: the configured `pauseOnCaptchaHours` is neither the
ceiling on the pause duration nor the default pause. For the `duckduckgo`
engine (`pauseOnCaptchaHours = 1`, i.e. 3 600 000 ms): with no window data the
first CAPTCHA pauses 15 minutes (not 1 hour), and a second CAPTCHA 30 minutes
later pauses 2 hours — exceeding the claimed 1-hour ceiling. `markBlocked`
never reads the throttle config. -/
theorem c3_counterexample :
    let t1 : Nat := 86400001
    let st1 := markBlocked t1 freshCaptchaState
    let st2 := markBlocked (t1 + 1800000) st1
    engineConfigDuckduckgo.throttle.pauseOnCaptchaHours * 3600000 = 3600000 ∧
    st1.blockedUntil = some (t1 + 900000) ∧
    (900000 : Nat) ≠ engineConfigDuckduckgo.throttle.pauseOnCaptchaHours * 3600000 ∧
    st2.blockedUntil = some (t1 + 1800000 + 7200000) ∧
    7200000 > engineConfigDuckduckgo.throttle.pauseOnCaptchaHours * 3600000 := by
  decide

/-- C3 amended: CAPTCHA events produce graduated blocks — within the window
started by its first event, the 1st event blocks 15 minutes, the 2nd 2 hours,
the 3rd and every later event 24 hours; the window resets once more than 24 h
have passed since it started. The configured `pauseOnCaptchaHours` is not
consulted: these durations apply to every engine regardless of its config. -/
theorem c3_graduated_blocks (t1 t2 t3 : Nat)
    (h1 : 86400000 < t1) (h12 : t1 ≤ t2) (h2 : t2 - t1 ≤ 86400000)
    (h23 : t2 ≤ t3) (h3 : t3 - t1 ≤ 86400000) :
    let st1 : CaptchaState := markBlocked t1 freshCaptchaState
    let st2 := markBlocked t2 st1
    let st3 := markBlocked t3 st2
    st1.captchaCount = 1 ∧ st1.blockedUntil = some (t1 + 15 * 60 * 1000) ∧
    st1.status = .blocked ∧
    st2.captchaCount = 2 ∧ st2.blockedUntil = some (t2 + 2 * 3600000) ∧
    st3.captchaCount = 3 ∧ st3.blockedUntil = some (t3 + 24 * 3600000) ∧
    (∀ (st : CaptchaState) (now : Nat), 2 ≤ st.captchaCount →
      st.captchaWindowStart ≠ 0 →
      (now : ℤ) - (st.captchaWindowStart : ℤ) ≤ 24 * 3600000 →
      (markBlocked now st).blockedUntil = some (now + 24 * 3600000)) := by
  have hne1 : t1 ≠ 0 := by omega
  have hs1 : markBlocked t1 freshCaptchaState =
      { captchaCount := 1, captchaWindowStart := t1,
        blockedUntil := some (t1 + 900000), status := .blocked } := by
    unfold markBlocked freshCaptchaState graduatedPauseMs
    dsimp only
    split_ifs <;> simp_all
  have hs2 : markBlocked t2 (markBlocked t1 freshCaptchaState) =
      { captchaCount := 2, captchaWindowStart := t1,
        blockedUntil := some (t2 + 7200000), status := .blocked } := by
    rw [hs1]
    unfold markBlocked graduatedPauseMs
    dsimp only
    split_ifs <;> simp_all <;> omega
  have hs3 : markBlocked t3 (markBlocked t2 (markBlocked t1 freshCaptchaState)) =
      { captchaCount := 3, captchaWindowStart := t1,
        blockedUntil := some (t3 + 86400000), status := .blocked } := by
    rw [hs2]
    unfold markBlocked graduatedPauseMs
    dsimp only
    split_ifs <;> simp_all <;> omega
  refine ⟨by rw [hs1], by rw [hs1], by rw [hs1], by rw [hs2], by rw [hs2],
    by rw [hs3], by rw [hs3], ?_⟩
  intro st now hcount hws hwin
  unfold markBlocked graduatedPauseMs
  dsimp only
  split_ifs <;> simp_all <;> omega

/-- C3 witness for `c3_graduated_blocks` at concrete event times: first event
just after the epoch day, second 30 minutes later, third an hour after that. -/
theorem c3_graduated_blocks_witness :
    (markBlocked 86400001 freshCaptchaState).blockedUntil =
      some (86400001 + 15 * 60 * 1000) ∧
    (markBlocked (86400001 + 1800000)
      (markBlocked 86400001 freshCaptchaState)).blockedUntil =
      some (86400001 + 1800000 + 2 * 3600000) := by
  have h := c3_graduated_blocks 86400001 (86400001 + 1800000)
    (86400001 + 1800000 + 3600000) (by decide) (by decide) (by decide)
    (by decide) (by decide)
  exact ⟨h.2.1, h.2.2.2.2.1⟩

/-- C2: the Google-group daily cap gates every dispatch. For a Google-group
engine, the worker loop checks the injected group-daily-total callback before
popping each task: (a) while the callback reports at least 200
(`GOOGLE_COMBINED_DAILY_LIMIT`), no task is dispatched at all; (b) every task
that is dispatched was dispatched at a loop step where the callback reported
strictly less than 200. -/
theorem c2_google_group_cap (engineId : String) (canReq : Nat → Bool)
    (googleTotal : Nat → Nat) (stopped : Nat → Bool)
    (hg : isGoogleEngine engineId = true) :
    (∀ (q : List ScanTask) (i0 : Nat),
      (∀ i, GOOGLE_COMBINED_DAILY_LIMIT ≤ googleTotal i) →
      processEngineLoop engineId canReq googleTotal stopped q i0 = []) ∧
    (∀ (q : List ScanTask) (i0 j : Nat),
      j < (processEngineLoop engineId canReq googleTotal stopped q i0).length →
      googleTotal (i0 + j) < GOOGLE_COMBINED_DAILY_LIMIT) := by
  constructor
  · intro q i0 hcap
    match q with
    | [] => rfl
    | t :: rest =>
      unfold processEngineLoop
      by_cases hstop : stopped i0
      · simp [hstop]
      · by_cases hcan : canReq i0
        · simp [hstop, hcan, hg, hcap i0]
        · simp [hstop, hcan]
  · intro q
    induction q with
    | nil =>
      intro i0 j hj
      simp [processEngineLoop] at hj
    | cons t rest ih =>
      intro i0 j hj
      unfold processEngineLoop at hj
      by_cases hstop : stopped i0
      · simp [hstop] at hj
      · by_cases hcan : canReq i0
        · by_cases hcap :
            GOOGLE_COMBINED_DAILY_LIMIT ≤ googleTotal i0
          · simp [hstop, hcan, hg, hcap] at hj
          · match j with
            | 0 => simpa using hcap
            | j' + 1 =>
              rw [if_neg (by simp [hstop]), if_neg (by simp [hcan]),
                if_neg (by simp [hg, hcap])] at hj
              simp only [List.length_cons, Nat.add_lt_add_iff_right] at hj
              have hidx : i0 + (j' + 1) = (i0 + 1) + j' := by omega
              rw [hidx]
              exact ih (i0 + 1) j' hj
        · simp [hstop, hcan] at hj

/-- C2 witness for `c2_google_group_cap`: the `google_maps` engine with the
orchestrator's group total reporting 60+70+70 = 200 (scenario S4) dispatches
nothing from a one-task queue. -/
theorem c2_google_group_cap_witness :
    let total := getGoogleDailyTotal fun e =>
      if e = "google_search" then some 60
      else if e = "google_maps" then some 70
      else if e = "google_local" then some 70 else none
    let task : ScanTask :=
      { scanId := 0, scanPointId := 0, engineId := "google_maps",
        query := "pizza", point := { row := 0, col := 0, lat := 0, lng := 0 },
        priority := 1 }
    total = 200 ∧
    processEngineLoop "google_maps" (fun _ => true) (fun _ => total)
      (fun _ => false) [task] 0 = [] := by
  refine ⟨by decide, ?_⟩
  exact (c2_google_group_cap "google_maps" (fun _ => true) (fun _ => 200)
    (fun _ => false) (by decide)).1 _ 0 (fun _ => by decide)

/-- C5 (the deployed queue's retry behavior, modelled from the spec): whenever
the worker loop for an engine pauses (engine not healthy, or Google-group cap)
while that engine's queue is still non-empty and the queue is not stopped, a
one-shot retry timer is scheduled to fire `RETRY_DELAY_MS = 60000` ms (60 s)
after `now`; `hasRetryTimer` then reports `true` for that engine, and reports
`false` again once the timer fires (`fireRetryTimer`, whose firing calls
`EnsureProcessing`). -/
theorem c5_pause_schedules_retry (st : SpecQueueState) (engineId : String)
    (canReq : Nat → Bool) (googleTotal : Nat → Nat) (now : Nat)
    (q rem disp : List ScanTask) (reason : PauseReason)
    (hq : specGetQueue st engineId = some q)
    (hloop : specWorkerLoopGo engineId canReq googleTotal st.stopped q 0 =
      (rem, disp, some reason))
    (hrem : rem ≠ []) (hstop : st.stopped = false) :
    ((engineId, now + RETRY_DELAY_MS) ∈
      (specWorkerRun st engineId canReq googleTotal now).1.retryTimers) ∧
    specHasRetryTimer (specWorkerRun st engineId canReq googleTotal now).1
      engineId = true ∧
    RETRY_DELAY_MS = 60000 ∧
    specHasRetryTimer
      (fireRetryTimer (specWorkerRun st engineId canReq googleTotal now).1
        engineId) engineId = false := by
  have hrt : (specWorkerRun st engineId canReq googleTotal now).1.retryTimers =
      st.retryTimers ++ [(engineId, now + RETRY_DELAY_MS)] := by
    unfold specWorkerRun
    rw [hq]
    rw [hstop] at hloop
    rw [hstop]
    simp [hloop, hrem, specSetQueue]
  refine ⟨?_, ?_, rfl, ?_⟩
  · rw [hrt]; simp
  · unfold specHasRetryTimer
    rw [hrt, List.find?_isSome]
    exact ⟨(engineId, now + RETRY_DELAY_MS), by simp, by simp⟩
  · unfold fireRetryTimer specEnsureProcessing specHasRetryTimer
    simp only [Bool.eq_false_iff, ne_eq, Option.isSome_iff_exists]
    rintro ⟨x, hx⟩
    have hmem := List.mem_of_find?_eq_some hx
    have hpred := List.find?_some hx
    rw [List.mem_filter] at hmem
    simp only [decide_eq_true_eq] at hmem hpred
    exact absurd hpred hmem.2

/-- C5 witness for `c5_pause_schedules_retry` at a concrete state: a
`google_maps` queue of two tasks pauses immediately on the group cap. -/
theorem c5_pause_schedules_retry_witness :
    let t : ScanTask :=
      { scanId := 0, scanPointId := 0, engineId := "google_maps",
        query := "pizza", point := { row := 0, col := 0, lat := 0, lng := 0 },
        priority := 1 }
    let st : SpecQueueState :=
      { queues := [("google_maps", [t, t])], processingEngines := ["google_maps"],
        retryTimers := [], stopped := false }
    specHasRetryTimer
      (specWorkerRun st "google_maps" (fun _ => true) (fun _ => 200) 5).1
      "google_maps" = true := by
  intro t st
  exact (c5_pause_schedules_retry st "google_maps" (fun _ => true)
    (fun _ => 200) 5 [t, t] [t, t] [] .dailyGroupCap (by decide) (by decide)
    (by decide) (by decide)).2.1

/-- C8 (code bug): an out-of-range grid size is NOT rejected by the
orchestrator. With an existing area and category and a registered engine, a
request with `gridSize = 4` — for which the validator `isValidGridSize`
(defined in `gridGenerator.ts` but called nowhere) returns `false` — succeeds:
`createScanRecord` persists the Scan with `gridSize = 4` and
`pointsTotal = 16`, invokes `generateGrid` with it, and persists all 16 grid
points. -/
theorem c8_gridsize_not_validated :
    let area : ServiceArea :=
      { id := "A1", name := "Boca Raton", state := "FL",
        centerLat := 264615/10000, centerLng := -800728/10000,
        radiusMiles := 1, isActive := true }
    let cat : Category :=
      { id := "C1", name := "Pizza", slug := "pizza", isActive := true }
    let db0 : OrchDb :=
      { businesses := { businesses := [], nextId := 0 },
        serviceAreas := [area], categories := [cat] }
    let res := createScanRecord 1 ["duckduckgo"] db0
      { serviceAreaId := "A1", categoryId := "C1", keyword := "pizza",
        searchEngine := "duckduckgo", gridSize := some 4 } 50
    isValidGridSize 4 = false ∧
    (res.toOption.map fun r =>
      (r.2.1.scans.map fun s => (s.gridSize, s.pointsTotal, s.status),
       r.2.1.scanPoints.length, r.2.2.length)) =
      some ([(4, 16, ScanStatus.running)], 16, 16) := by
  decide

/-- Two pointwise-equal predicates find the same element. -/
theorem find?_pred_congr {α : Type} (p q : α → Bool) (l : List α)
    (h : ∀ a, p a = q a) : l.find? p = l.find? q := by
  rw [show p = q from funext h]

/-- The scan-counter update rewrites only the matching scan row. -/
theorem getScan_incrementPointsCompleted (db : OrchDb) (tid sid : Nat) :
    getScan (incrementPointsCompleted db tid) sid =
      (getScan db sid).map fun s =>
        if s.id = tid then { s with pointsCompleted := s.pointsCompleted + 1 }
        else s := by
  unfold getScan incrementPointsCompleted
  rw [List.find?_map]
  have hp : ∀ s : ScanRec,
      (if s.id = tid then { s with pointsCompleted := s.pointsCompleted + 1 }
       else s).id = s.id := by
    intro s
    split <;> rfl
  congr 1
  exact find?_pred_congr _ _ _ fun s => by
    simp only [Function.comp_apply, hp s]

/-- The point-status update rewrites only the matching scan point. -/
theorem getScanPoint_setScanPointStatus (db : OrchDb) (tid : Nat)
    (st : ScanPointStatus) (pid : Nat) :
    getScanPoint (setScanPointStatus db tid st) pid =
      (getScanPoint db pid).map fun p =>
        if p.id = tid then { p with status := st } else p := by
  unfold getScanPoint setScanPointStatus
  rw [List.find?_map]
  have hp : ∀ p : ScanPointRec,
      (if p.id = tid then { p with status := st } else p).id = p.id := by
    intro p
    split <;> rfl
  congr 1
  exact find?_pred_congr _ _ _ fun p => by
    simp only [Function.comp_apply, hp p]

theorem scans_setScanPointStatus (db : OrchDb) (tid : Nat)
    (st : ScanPointStatus) : (setScanPointStatus db tid st).scans = db.scans :=
  rfl

theorem scanPoints_incrementPointsCompleted (db : OrchDb) (tid : Nat) :
    (incrementPointsCompleted db tid).scanPoints = db.scanPoints :=
  rfl

/-- Business resolution and ranking/snapshot writes leave the scan and
scan-point tables untouched. -/
theorem processBusinessResult_scans (dist : ℚ → ℚ → ℚ → ℚ → ℚ)
    (normDomain : Option String → Option String) (db : OrchDb) (task : ScanTask)
    (parsed : ParsedBusiness) (categoryId : Option String) (now : Nat) :
    (processBusinessResult dist normDomain db task parsed categoryId now).scans
        = db.scans ∧
    (processBusinessResult dist normDomain db task parsed categoryId now).scanPoints
        = db.scanPoints := by
  unfold processBusinessResult
  split <;> exact ⟨rfl, rfl⟩

theorem foldl_processBusinessResult_scans (dist : ℚ → ℚ → ℚ → ℚ → ℚ)
    (normDomain : Option String → Option String) (task : ScanTask)
    (categoryId : Option String) (now : Nat) (l : List ParsedBusiness)
    (db : OrchDb) :
    (l.foldl (fun d biz => processBusinessResult dist normDomain d task biz
      categoryId now) db).scans = db.scans ∧
    (l.foldl (fun d biz => processBusinessResult dist normDomain d task biz
      categoryId now) db).scanPoints = db.scanPoints := by
  induction l generalizing db with
  | nil => exact ⟨rfl, rfl⟩
  | cons b rest ih =>
    simp only [List.foldl_cons]
    constructor
    · rw [(ih _).1, (processBusinessResult_scans ..).1]
    · rw [(ih _).2, (processBusinessResult_scans ..).2]

/-- Every run of the task handler for a task of a registered engine — success
or raised search — bumps its scan's `pointsCompleted` by exactly one. -/
theorem getScan_executeTask (dist : ℚ → ℚ → ℚ → ℚ → ℚ)
    (normDomain : Option String → Option String) (registered : List String)
    (db : OrchDb) (task : ScanTask) (outcome : Except String SERPResult)
    (now sid : Nat) (hreg : registered.contains task.engineId = true) :
    getScan (executeTask dist normDomain registered db task outcome now) sid =
      (getScan db sid).map fun s =>
        if s.id = task.scanId then
          { s with pointsCompleted := s.pointsCompleted + 1 }
        else s := by
  unfold executeTask
  rw [if_neg (by simp_all)]
  match outcome with
  | .error e =>
    rw [getScan_incrementPointsCompleted]
    rfl
  | .ok result =>
    rw [getScan_incrementPointsCompleted]
    congr 1
    unfold getScan
    rw [scans_setScanPointStatus,
      (foldl_processBusinessResult_scans dist normDomain task _ now
        result.businesses db).1]

/-- Running a batch of `n` handler invocations for one scan adds `n` to its
`pointsCompleted`. -/
theorem getScan_runTasks (dist : ℚ → ℚ → ℚ → ℚ → ℚ)
    (normDomain : Option String → Option String) (registered : List String)
    (jobs : List (ScanTask × Except String SERPResult)) (db : OrchDb)
    (sid now : Nat)
    (hjobs : ∀ j ∈ jobs, j.1.scanId = sid ∧
      registered.contains j.1.engineId = true) :
    getScan (runTasks dist normDomain registered db jobs now) sid =
      (getScan db sid).map fun s =>
        { s with pointsCompleted := s.pointsCompleted + jobs.length } := by
  induction jobs generalizing db with
  | nil =>
    unfold runTasks
    simp only [List.foldl_nil, List.length_nil, Nat.add_zero]
    cases getScan db sid with
    | none => rfl
    | some s => rfl
  | cons j rest ih =>
    have hj := hjobs j (by simp)
    unfold runTasks at ih ⊢
    simp only [List.foldl_cons]
    rw [ih _ (fun x hx => hjobs x (by simp [hx])),
      getScan_executeTask dist normDomain registered db j.1 j.2 now sid hj.2]
    cases hfind : getScan db sid with
    | none => rfl
    | some s =>
      have hs : s.id = sid := by
        have := List.find?_some hfind
        simpa using this
      simp only [Option.map_some']
      rw [if_pos (by rw [hs, hj.1])]
      simp only [List.length_cons]
      have harith : s.pointsCompleted + 1 + rest.length =
          s.pointsCompleted + (rest.length + 1) := by omega
      rw [harith]

/-- C1: a raised engine search fails the point but still counts it. If
`engine.search` raises, the handler marks the task's ScanPoint `failed` and
increments the scan's `pointsCompleted` by one; since the success path
increments by one as well, a scan whose every point is handled (each either
succeeding or failing) reaches `pointsCompleted = pointsTotal`, at which the
monitor freezes it as `completed`. -/
theorem c1_failed_point_counts (dist : ℚ → ℚ → ℚ → ℚ → ℚ)
    (normDomain : Option String → Option String) (registered : List String) :
    (∀ (db : OrchDb) (task : ScanTask) (e : String) (now : Nat),
      registered.contains task.engineId = true →
      (∀ p, getScanPoint db task.scanPointId = some p →
        getScanPoint (executeTask dist normDomain registered db task
          (.error e) now) task.scanPointId =
          some { p with status := ScanPointStatus.failed }) ∧
      (∀ s, getScan db task.scanId = some s →
        getScan (executeTask dist normDomain registered db task
          (.error e) now) task.scanId =
          some { s with pointsCompleted := s.pointsCompleted + 1 })) ∧
    (∀ (db : OrchDb) (jobs : List (ScanTask × Except String SERPResult))
      (sid now : Nat) (s0 : ScanRec),
      (∀ j ∈ jobs, j.1.scanId = sid ∧
        registered.contains j.1.engineId = true) →
      getScan db sid = some s0 → s0.pointsCompleted = 0 →
      jobs.length = s0.pointsTotal →
      getScan (runTasks dist normDomain registered db jobs now) sid =
        some { s0 with pointsCompleted := s0.pointsTotal }) ∧
    (∀ (scan : ScanRec) (queueDepth : Nat) (isProcessing hasRetry : Bool),
      scan.pointsTotal ≤ scan.pointsCompleted →
      monitorScanDecision scan queueDepth isProcessing hasRetry =
        some (ScanStatus.completed, none)) := by
  refine ⟨?_, ?_, ?_⟩
  · intro db task e now hreg
    constructor
    · intro p hp
      unfold executeTask
      rw [if_neg (by simp_all)]
      have hpid : p.id = task.scanPointId := by
        have := List.find?_some hp
        simpa using this
      unfold getScanPoint
      rw [scanPoints_incrementPointsCompleted]
      have := getScanPoint_setScanPointStatus db task.scanPointId
        ScanPointStatus.failed task.scanPointId
      unfold getScanPoint at this hp
      rw [this, hp]
      simp [hpid]
    · intro s hs
      rw [getScan_executeTask dist normDomain registered db task (.error e)
        now task.scanId hreg, hs]
      have hsid : s.id = task.scanId := by
        have := List.find?_some hs
        simpa using this
      simp [hsid]
  · intro db jobs sid now s0 hjobs hfind hzero hlen
    rw [getScan_runTasks dist normDomain registered jobs db sid now hjobs,
      hfind]
    simp only [Option.map_some']
    rw [hlen, hzero]
    simp
  · intro scan queueDepth isProcessing hasRetry hdone
    unfold monitorScanDecision
    rw [if_pos hdone]

/-- C1 witness for `c1_failed_point_counts`: a one-point scan whose single
task raises reaches `pointsCompleted = pointsTotal = 1` with the point
`failed`, and the monitor decision is `completed`. -/
theorem c1_failed_point_counts_witness :
    let scan0 : ScanRec :=
      { id := 0, serviceAreaId := "A1", categoryId := some "C1",
        keyword := "pizza", searchEngine := "duckduckgo", gridSize := 1,
        radiusMiles := 1, status := .running, pointsTotal := 1,
        pointsCompleted := 0 }
    let point0 : ScanPointRec :=
      { id := 0, scanId := 0, gridRow := 0, gridCol := 0, lat := 0, lng := 0,
        status := .pending }
    let db0 : OrchDb :=
      { businesses := { businesses := [], nextId := 0 }, scans := [scan0],
        scanPoints := [point0] }
    let task : ScanTask :=
      { scanId := 0, scanPointId := 0, engineId := "duckduckgo",
        query := "pizza", point := { row := 0, col := 0, lat := 0, lng := 0 },
        priority := 1 }
    let dist : ℚ → ℚ → ℚ → ℚ → ℚ := fun _ _ _ _ => 0
    let nd : Option String → Option String := fun _ => none
    getScan (runTasks dist nd ["duckduckgo"] db0 [(task, .error "timeout")] 9)
        0 = some { scan0 with pointsCompleted := 1 } ∧
    monitorScanDecision { scan0 with pointsCompleted := 1 } 0 false false =
      some (ScanStatus.completed, none) := by
  intro scan0 point0 db0 task dist nd
  have h := c1_failed_point_counts dist nd ["duckduckgo"]
  constructor
  · exact h.2.1 db0 [(task, .error "timeout")] 0 9 scan0
      (by intro j hj; simp at hj; rw [hj]; exact ⟨rfl, by decide⟩)
      (by decide) rfl rfl
  · exact h.2.2 _ 0 false false (by decide)

/-- Rounding to 7 decimal places is monotone. -/
theorem round7_mono {a b : ℚ} (h : a ≤ b) : round7 a ≤ round7 b := by
  unfold round7
  have hr : round (a * 10000000) ≤ round (b * 10000000) := by
    rw [round_eq, round_eq]
    exact Int.floor_le_floor (by linarith)
  have : ((round (a * 10000000) : ℤ) : ℚ) ≤ ((round (b * 10000000) : ℤ) : ℚ) := by
    exact_mod_cast hr
  linarith

/-- Rounding to 7 decimal places moves a value by at most half of 10⁻⁷. -/
theorem round7_abs_err (a : ℚ) : |round7 a - a| ≤ 1 / 20000000 := by
  unfold round7
  have h := abs_sub_round (a * 10000000)
  rw [abs_sub_comm] at h
  have heq : (round (a * 10000000) : ℚ) / 10000000 - a =
      ((round (a * 10000000) : ℚ) - a * 10000000) / 10000000 := by ring
  rw [heq, abs_div]
  rw [show |(10000000 : ℚ)| = 10000000 by norm_num]
  rw [div_le_div_iff (by norm_num) (by norm_num)]
  linarith

/-- Membership in the generated grid, with the coordinate formulas spelled
out. -/
theorem mem_generateGrid (cLat cLng r cosC : ℚ) (N : Nat) (p : GridPoint) :
    p ∈ generateGrid cLat cLng r cosC N ↔
      p.row < N ∧ p.col < N ∧
      p.lat = round7 ((cLat + r * 2 / 69 / 2) -
        (p.row : ℚ) * (r * 2 / 69 / ((N : ℚ) - 1))) ∧
      p.lng = round7 ((cLng - r * 2 / (69 * cosC) / 2) +
        (p.col : ℚ) * (r * 2 / (69 * cosC) / ((N : ℚ) - 1))) := by
  unfold generateGrid milesToLatDegrees milesToLngDegrees
  simp only [List.mem_flatMap, List.mem_map, List.mem_range]
  constructor
  · rintro ⟨row, hrow, col, hcol, rfl⟩
    exact ⟨hrow, hcol, rfl, rfl⟩
  · rintro ⟨h1, h2, h3, h4⟩
    refine ⟨p.row, h1, p.col, h2, ?_⟩
    cases p
    simp only at h3 h4
    simp [h3, h4]

/-- C6: grid shape. For a valid grid size, a positive radius and a center
latitude strictly between the poles (so that the cosine supplied to
`milesToLngDegrees` is positive): the grid has exactly `N²` points; all row-0
points share one latitude and it is the northernmost; all col-0 points share
one longitude and it is the westernmost; and the north-to-south latitude span
equals `2r/69` degrees to within `10⁻⁶`. -/
theorem c6_grid_shape (cLat cLng r cosC : ℚ) (N : Nat)
    (hN : N ∈ GRID_SIZES) (hr : 0 < r) (hcos : 0 < cosC) :
    (generateGrid cLat cLng r cosC N).length = N * N ∧
    (∀ p ∈ generateGrid cLat cLng r cosC N,
      ∀ q ∈ generateGrid cLat cLng r cosC N,
        p.row = 0 → q.row = 0 → p.lat = q.lat) ∧
    (∀ p ∈ generateGrid cLat cLng r cosC N,
      ∀ q ∈ generateGrid cLat cLng r cosC N, p.row = 0 → q.lat ≤ p.lat) ∧
    (∀ p ∈ generateGrid cLat cLng r cosC N,
      ∀ q ∈ generateGrid cLat cLng r cosC N,
        p.col = 0 → q.col = 0 → p.lng = q.lng) ∧
    (∀ p ∈ generateGrid cLat cLng r cosC N,
      ∀ q ∈ generateGrid cLat cLng r cosC N, p.col = 0 → p.lng ≤ q.lng) ∧
    (∀ p ∈ generateGrid cLat cLng r cosC N,
      ∀ q ∈ generateGrid cLat cLng r cosC N, p.row = 0 → q.row = N - 1 →
        |(p.lat - q.lat) - r * 2 / 69| ≤ 1 / 1000000) := by
  have hN2 : 2 ≤ N := by
    simp [GRID_SIZES] at hN
    rcases hN with rfl | rfl | rfl | rfl <;> norm_num
  have hNQ : (0 : ℚ) < (N : ℚ) - 1 := by
    have : (2 : ℚ) ≤ (N : ℚ) := by exact_mod_cast hN2
    linarith
  have hlatStep : (0 : ℚ) ≤ r * 2 / 69 / ((N : ℚ) - 1) := by positivity
  have hlngStep : (0 : ℚ) ≤ r * 2 / (69 * cosC) / ((N : ℚ) - 1) := by positivity
  refine ⟨?_, ?_, ?_, ?_, ?_, ?_⟩
  · unfold generateGrid
    rw [List.length_flatMap]
    simp only [Function.comp_def, List.length_map, List.length_range,
      List.map_const']
    rw [List.sum_replicate, smul_eq_mul]
  · intro p hp q hq hp0 hq0
    rw [(mem_generateGrid cLat cLng r cosC N p).1 hp |>.2.2.1,
      (mem_generateGrid cLat cLng r cosC N q).1 hq |>.2.2.1, hp0, hq0]
  · intro p hp q hq hp0
    rw [(mem_generateGrid cLat cLng r cosC N p).1 hp |>.2.2.1,
      (mem_generateGrid cLat cLng r cosC N q).1 hq |>.2.2.1, hp0]
    apply round7_mono
    have : (0 : ℚ) ≤ (q.row : ℚ) * (r * 2 / 69 / ((N : ℚ) - 1)) := by positivity
    push_cast
    linarith
  · intro p hp q hq hp0 hq0
    rw [(mem_generateGrid cLat cLng r cosC N p).1 hp |>.2.2.2,
      (mem_generateGrid cLat cLng r cosC N q).1 hq |>.2.2.2, hp0, hq0]
  · intro p hp q hq hp0
    rw [(mem_generateGrid cLat cLng r cosC N p).1 hp |>.2.2.2,
      (mem_generateGrid cLat cLng r cosC N q).1 hq |>.2.2.2, hp0]
    apply round7_mono
    have : (0 : ℚ) ≤ (q.col : ℚ) * (r * 2 / (69 * cosC) / ((N : ℚ) - 1)) := by
      positivity
    push_cast
    linarith
  · intro p hp q hq hp0 hqN
    rw [(mem_generateGrid cLat cLng r cosC N p).1 hp |>.2.2.1,
      (mem_generateGrid cLat cLng r cosC N q).1 hq |>.2.2.1, hp0, hqN]
    have hcast : ((N - 1 : Nat) : ℚ) = (N : ℚ) - 1 := by
      have : (1 : Nat) ≤ N := by omega
      push_cast [this]
      ring
    rw [hcast]
    have hstep : ((N : ℚ) - 1) * (r * 2 / 69 / ((N : ℚ) - 1)) = r * 2 / 69 := by
      field_simp
      ring
    have e1 := round7_abs_err (cLat + r * 2 / 69 / 2 - 0 * (r * 2 / 69 / ((N : ℚ) - 1)))
    have e2 := round7_abs_err (cLat + r * 2 / 69 / 2 -
      ((N : ℚ) - 1) * (r * 2 / 69 / ((N : ℚ) - 1)))
    rw [hstep] at e2
    rw [hstep]
    rw [abs_le] at e1 e2 ⊢
    constructor <;> [skip; skip] <;> · obtain ⟨a1, a2⟩ := e1; obtain ⟨b1, b2⟩ := e2; linarith

/-- C6 witness for `c6_grid_shape`: the 3×3 grid at the equator
(`cos 0 = 1`) with a 69-mile radius has 9 points. -/
theorem c6_grid_shape_witness :
    (3 ∈ GRID_SIZES ∧ (0 : ℚ) < 69 ∧ (0 : ℚ) < 1) ∧
    (generateGrid 0 0 69 1 3).length = 3 * 3 := by
  refine ⟨⟨by decide, by norm_num, by norm_num⟩, ?_⟩
  exact (c6_grid_shape 0 0 69 1 3 (by decide) (by norm_num) (by norm_num)).1

/-! ## Character-level facts for the name-normalization analysis -/

theorem char_toNat_ofNat {n : Nat} (h : n ≤ 122) : (Char.ofNat n).toNat = n := by
  unfold Char.ofNat
  rw [dif_pos (by left; omega)]
  simp [Char.toNat, Char.ofNatAux, UInt32.toNat, BitVec.toNat_ofNatLt]

theorem wordChar_not_space {c : Char} (h : isWordChar c = true) :
    isSpaceChar c = false := by
  simp only [isWordChar, decide_eq_true_eq] at h
  simp only [isSpaceChar, decide_eq_false_iff_not]
  omega

theorem toLower_eq_self {c : Char} (h : ¬ (65 ≤ c.toNat ∧ c.toNat ≤ 90)) :
    Char.toLower c = c := by
  unfold Char.toLower
  exact if_neg fun hc => h ⟨hc.1, hc.2⟩

theorem toLower_toNat_of_upper {c : Char} (h : 65 ≤ c.toNat ∧ c.toNat ≤ 90) :
    (Char.toLower c).toNat = c.toNat + 32 := by
  unfold Char.toLower
  rw [if_pos ⟨h.1, h.2⟩]
  exact char_toNat_ofNat (by omega)

theorem toLower_idem (c : Char) :
    Char.toLower (Char.toLower c) = Char.toLower c := by
  by_cases h : 65 ≤ c.toNat ∧ c.toNat ≤ 90
  · have ht := toLower_toNat_of_upper h
    exact toLower_eq_self (by omega)
  · rw [toLower_eq_self h, toLower_eq_self h]

theorem toLower_of_space {c : Char} (h : isSpaceChar c = true) :
    Char.toLower c = c := by
  simp only [isSpaceChar, decide_eq_true_eq] at h
  exact toLower_eq_self (by omega)

theorem wordChar_toLower {c : Char} (h : isWordChar c = true) :
    isWordChar (Char.toLower c) = true := by
  simp only [isWordChar, decide_eq_true_eq] at h ⊢
  by_cases hu : 65 ≤ c.toNat ∧ c.toNat ≤ 90
  · rw [toLower_toNat_of_upper hu]
    omega
  · rw [toLower_eq_self hu]
    omega

theorem spaceChar_toLower {c : Char} (h : isSpaceChar c = true) :
    isSpaceChar (Char.toLower c) = true := by
  rw [toLower_of_space h]
  exact h

/-! ## Suffix-stripping pass: structural lemmas -/

theorem legalSuffixes_wordlike :
    ∀ alt ∈ legalSuffixes, alt ≠ [] ∧ ∀ c ∈ alt, isWordChar c = true := by
  decide

theorem space_not_word : isWordChar ' ' = false := by decide

theorem space_is_space : isSpaceChar ' ' = true := by decide

theorem stripGo_cons (fuel : Nat) (pw : Bool) (c : Char) (rest : List Char) :
    stripSuffixWordsGo (fuel + 1) pw (c :: rest) =
      match (if pw then none else suffixMatchLen (c :: rest)) with
      | some n => stripSuffixWordsGo fuel true (rest.drop (n - 1))
      | none => c :: stripSuffixWordsGo fuel (isWordChar c) rest := rfl

theorem stripGo_fuel_irrel (f1 f2 : Nat) (pw : Bool) (l : List Char)
    (h1 : l.length < f1) (h2 : l.length < f2) :
    stripSuffixWordsGo f1 pw l = stripSuffixWordsGo f2 pw l := by
  induction f1 generalizing f2 pw l with
  | zero => omega
  | succ f1 ih =>
    cases f2 with
    | zero => omega
    | succ f2 =>
      cases l with
      | nil => rfl
      | cons c rest =>
        simp only [List.length_cons] at h1 h2
        rw [stripGo_cons, stripGo_cons]
        cases hm : (if pw then none else suffixMatchLen (c :: rest)) with
        | none =>
          dsimp only
          rw [ih f2 (isWordChar c) rest (by omega) (by omega)]
        | some n =>
          have hd : (rest.drop (n - 1)).length ≤ rest.length := by
            simp [List.length_drop]
          dsimp only
          rw [ih f2 true (rest.drop (n - 1)) (by omega) (by omega)]

theorem if_true_none (x : Option Nat) : (if true = true then none else x) = none := rfl

theorem if_false_opt (x : Option Nat) : (if false = true then none else x) = x := rfl

/-- Scanning from the word-inside state emits the character unchanged. -/
theorem strip_cons_prevW (c : Char) (rest : List Char) :
    stripSuffixWords true (c :: rest) = c :: stripSuffixWords (isWordChar c) rest := by
  unfold stripSuffixWords
  rw [show (c :: rest).length + 1 = (rest.length + 1) + 1 by simp, stripGo_cons,
    if_true_none]

/-- No suffix alternative can match at a non-word character. -/
theorem suffixMatchLen_nonword {c : Char} (rest : List Char)
    (h : isWordChar c = false) : suffixMatchLen (c :: rest) = none := by
  unfold suffixMatchLen
  rw [List.findSome?_eq_none]
  intro alt halt
  rw [if_neg]
  rintro ⟨hp, -⟩
  obtain ⟨hne, hw⟩ := legalSuffixes_wordlike alt halt
  rw [List.isPrefixOf_iff_prefix] at hp
  cases alt with
  | nil => exact hne rfl
  | cons a alt' =>
    obtain ⟨rfl, -⟩ := List.cons_prefix_cons.1 hp
    rw [hw a (by simp)] at h
    cases h

/-- Scanning a non-word character from the boundary state emits it
unchanged. -/
theorem strip_cons_nonword {c : Char} (rest : List Char) (pw : Bool)
    (h : isWordChar c = false) :
    stripSuffixWords pw (c :: rest) = c :: stripSuffixWords false rest := by
  unfold stripSuffixWords
  rw [show (c :: rest).length + 1 = (rest.length + 1) + 1 by simp, stripGo_cons]
  cases pw with
  | true => rw [if_true_none, h]
  | false => rw [if_false_opt, suffixMatchLen_nonword rest h, h]

theorem boundaryAfter_cons (c : Char) (l : List Char) :
    boundaryAfter (c :: l) = true ↔ isWordChar c = false := by
  simp [boundaryAfter]

/-- A word-character alternative that matches a maximal word with a boundary
after it is that whole word. -/
theorem prefix_word_boundary :
    ∀ (alt w rest : List Char), (∀ c ∈ alt, isWordChar c = true) →
      (∀ c ∈ w, isWordChar c = true) →
      (rest = [] ∨ ∃ d rest', rest = d :: rest' ∧ isWordChar d = false) →
      alt <+: (w ++ rest) →
      boundaryAfter ((w ++ rest).drop alt.length) = true → alt = w := by
  intro alt
  induction alt with
  | nil =>
    intro w rest _ hw hrest _ hb
    cases w with
    | nil => rfl
    | cons a w' =>
      simp only [List.length_nil, List.drop_zero, List.cons_append] at hb
      have hfa := (boundaryAfter_cons a (w' ++ rest)).1 hb
      rw [hw a (by simp)] at hfa
      cases hfa
  | cons a alt' ih =>
    intro w rest halt hw hrest hp hb
    cases w with
    | nil =>
      rcases hrest with rfl | ⟨d, rest', rfl, hd⟩
      · simp at hp
      · simp only [List.nil_append] at hp
        obtain ⟨rfl, -⟩ := List.cons_prefix_cons.1 hp
        rw [halt a (by simp)] at hd
        cases hd
    | cons b w' =>
      simp only [List.cons_append] at hp hb
      obtain ⟨rfl, hp'⟩ := List.cons_prefix_cons.1 hp
      simp only [List.length_cons, List.drop_succ_cons] at hb
      rw [ih w' rest (fun c hc => halt c (by simp [hc]))
        (fun c hc => hw c (by simp [hc])) hrest hp' hb]

/-- At the start of a maximal word that is not a legal suffix token, the
alternation does not match. -/
theorem suffixMatchLen_not_suffix {w rest : List Char}
    (hw : ∀ c ∈ w, isWordChar c = true)
    (hrest : rest = [] ∨ ∃ d rest', rest = d :: rest' ∧ isWordChar d = false)
    (hns : w ∉ legalSuffixes) : suffixMatchLen (w ++ rest) = none := by
  unfold suffixMatchLen
  rw [List.findSome?_eq_none]
  intro alt halt
  rw [if_neg]
  rintro ⟨hp, hb⟩
  obtain ⟨-, haw⟩ := legalSuffixes_wordlike alt halt
  rw [List.isPrefixOf_iff_prefix] at hp
  have : alt = w := prefix_word_boundary alt w rest haw hw hrest hp (by simpa using hb)
  subst this
  exact hns halt

/-- At the start of a maximal word that IS a legal suffix token, the
alternation matches exactly that word. -/
theorem suffixMatchLen_suffix {w rest : List Char}
    (hw : ∀ c ∈ w, isWordChar c = true)
    (hrest : rest = [] ∨ ∃ d rest', rest = d :: rest' ∧ isWordChar d = false)
    (hmem : w ∈ legalSuffixes) : suffixMatchLen (w ++ rest) = some w.length := by
  unfold suffixMatchLen
  have hball : boundaryAfter ((w ++ rest).drop w.length) = true := by
    rw [List.drop_left]
    rcases hrest with rfl | ⟨d, rest', rfl, hd⟩
    · rfl
    · simp [boundaryAfter, hd]
  have hgen : ∀ (L : List (List Char)),
      (∀ alt ∈ L, alt ≠ [] ∧ ∀ c ∈ alt, isWordChar c = true) → w ∈ L →
      L.findSome? (fun alt =>
        if alt.isPrefixOf (w ++ rest) ∧ boundaryAfter ((w ++ rest).drop alt.length)
        then some alt.length else none) = some w.length := by
    intro L
    induction L with
    | nil => intro _ h; cases h
    | cons alt L' ihL =>
      intro hL hmemL
      rw [List.findSome?_cons]
      by_cases hc : alt.isPrefixOf (w ++ rest) ∧
          boundaryAfter ((w ++ rest).drop alt.length)
      · have : alt = w := by
          have hp := hc.1
          rw [List.isPrefixOf_iff_prefix] at hp
          exact prefix_word_boundary alt w rest (hL alt (by simp)).2 hw hrest hp
            (by simpa using hc.2)
        rw [if_pos hc, this]
      · rw [if_neg hc]
        simp only
        apply ihL (fun a ha => hL a (by simp [ha]))
        cases hmemL with
        | head =>
          have hpw : w.isPrefixOf (w ++ rest) = true := by
            rw [List.isPrefixOf_iff_prefix]
            exact List.prefix_append w rest
          exact absurd ⟨hpw, hball⟩ hc
        | tail _ h => exact h
  exact hgen legalSuffixes legalSuffixes_wordlike hmem

/-- The scanner walks through word characters in the inside-word state. -/
theorem strip_walk_word (w : List Char) (rest : List Char)
    (hw : ∀ c ∈ w, isWordChar c = true) :
    stripSuffixWords true (w ++ rest) = w ++ stripSuffixWords true rest := by
  induction w with
  | nil => rfl
  | cons c w' ih =>
    rw [List.cons_append, strip_cons_prevW, hw c (by simp),
      ih fun c hc => hw c (by simp [hc]), List.cons_append]

/-- A maximal word that is not a suffix token passes through the scanner. -/
theorem strip_word_kept {w : List Char} (rest : List Char)
    (hne : w ≠ []) (hw : ∀ c ∈ w, isWordChar c = true)
    (hrest : rest = [] ∨ ∃ d rest', rest = d :: rest' ∧ isWordChar d = false)
    (hns : w ∉ legalSuffixes) :
    stripSuffixWords false (w ++ rest) = w ++ stripSuffixWords true rest := by
  cases w with
  | nil => exact absurd rfl hne
  | cons c w' =>
    rw [List.cons_append]
    unfold stripSuffixWords
    rw [show (c :: (w' ++ rest)).length + 1 = ((w' ++ rest).length + 1) + 1
      by simp, stripGo_cons, if_false_opt]
    rw [show suffixMatchLen (c :: (w' ++ rest)) = none from
      suffixMatchLen_not_suffix hw hrest hns]
    show c :: stripSuffixWords (isWordChar c) (w' ++ rest) = _
    rw [hw c (by simp),
      strip_walk_word w' rest fun x hx => hw x (by simp [hx])]
    rfl

/-- A maximal word that is a suffix token is removed by the scanner. -/
theorem strip_word_removed {w : List Char} (rest : List Char)
    (hne : w ≠ []) (hw : ∀ c ∈ w, isWordChar c = true)
    (hrest : rest = [] ∨ ∃ d rest', rest = d :: rest' ∧ isWordChar d = false)
    (hmem : w ∈ legalSuffixes) :
    stripSuffixWords false (w ++ rest) = stripSuffixWords true rest := by
  cases w with
  | nil => exact absurd rfl hne
  | cons c w' =>
    rw [List.cons_append]
    unfold stripSuffixWords
    rw [show (c :: (w' ++ rest)).length + 1 = ((w' ++ rest).length + 1) + 1
      by simp, stripGo_cons, if_false_opt]
    rw [show suffixMatchLen (c :: (w' ++ rest)) = some (c :: w').length from
      suffixMatchLen_suffix hw hrest hmem]
    show stripSuffixWordsGo ((w' ++ rest).length + 1) true
      ((w' ++ rest).drop ((c :: w').length - 1)) = _
    rw [show (c :: w').length - 1 = w'.length by simp,
      List.drop_left w' rest]
    rw [stripGo_fuel_irrel ((w' ++ rest).length + 1) (rest.length + 1) true rest
      (by simp only [List.length_append]; omega) (by omega)]

/-! ## Whitespace-collapsing and trimming: structural lemmas -/

theorem collapseGo_cons (ps : Bool) (c : Char) (r : List Char) :
    collapseSpacesGo ps (c :: r) =
      if isSpaceChar c then
        (if ps then collapseSpacesGo true r else ' ' :: collapseSpacesGo true r)
      else c :: collapseSpacesGo false r := rfl

theorem collapse_cons_nonspace {c : Char} (r : List Char) (ps : Bool)
    (h : isSpaceChar c = false) :
    collapseSpacesGo ps (c :: r) = c :: collapseSpacesGo false r := by
  rw [collapseGo_cons, h]
  simp

theorem collapse_cons_space_true {c : Char} (r : List Char)
    (h : isSpaceChar c = true) :
    collapseSpacesGo true (c :: r) = collapseSpacesGo true r := by
  rw [collapseGo_cons, h]
  simp

theorem collapse_cons_space_false {c : Char} (r : List Char)
    (h : isSpaceChar c = true) :
    collapseSpacesGo false (c :: r) = ' ' :: collapseSpacesGo true r := by
  rw [collapseGo_cons, h]
  simp

/-- The collapser walks through a run of non-space characters. -/
theorem collapse_walk_word (w : List Char) (r : List Char) (ps : Bool)
    (hne : w ≠ []) (hw : ∀ c ∈ w, isSpaceChar c = false) :
    collapseSpacesGo ps (w ++ r) = w ++ collapseSpacesGo false r := by
  induction w generalizing ps with
  | nil => exact absurd rfl hne
  | cons c w' ih =>
    rw [List.cons_append, collapse_cons_nonspace _ _ (hw c (by simp))]
    cases w' with
    | nil => rfl
    | cons d w'' =>
      rw [ih false (by simp) (fun x hx => hw x (by simp [hx]))]
      simp

/-- Output of the collapser in the after-space state starts with a non-space
character (leading spaces are absorbed). -/
theorem collapse_true_head :
    ∀ (x : List Char), collapseSpacesGo true x = [] ∨
      ∃ c r, collapseSpacesGo true x = c :: r ∧ isSpaceChar c = false := by
  intro x
  induction x with
  | nil => left; rfl
  | cons c r ih =>
    cases hc : isSpaceChar c with
    | true => rw [collapse_cons_space_true r hc]; exact ih
    | false =>
      right
      exact ⟨c, collapseSpacesGo false r, collapse_cons_nonspace r true hc, hc⟩

theorem jsTrim_cons_space (x : List Char) : jsTrim (' ' :: x) = jsTrim x := by
  unfold jsTrim
  rw [List.dropWhile_cons_of_pos (by rw [space_is_space])]

/-- Collapsing from either state gives the same result up to trimming. -/
theorem jsTrim_collapse_state (t : List Char) :
    jsTrim (collapseSpacesGo true t) = jsTrim (collapseSpacesGo false t) := by
  cases t with
  | nil => rfl
  | cons c r =>
    cases hc : isSpaceChar c with
    | true =>
      rw [collapse_cons_space_true r hc, collapse_cons_space_false r hc,
        jsTrim_cons_space]
    | false =>
      rw [collapse_cons_nonspace r true hc, collapse_cons_nonspace r false hc]

/-- `dropWhile` does nothing on a list whose characters all fail the
predicate. -/
theorem dropWhile_eq_self_of_all {p : Char → Bool} {l : List Char}
    (h : ∀ c ∈ l, p c = false) : l.dropWhile p = l := by
  cases l with
  | nil => rfl
  | cons c r => exact List.dropWhile_cons_of_neg (by rw [h c (by simp)]; simp)

/-- `trimRight` distributes over an append whose left part has no spaces. -/
theorem trimRight_append {w z : List Char}
    (hw : ∀ c ∈ w, isSpaceChar c = false) :
    trimRight (w ++ z) = w ++ trimRight z := by
  unfold trimRight
  rw [List.reverse_append, List.dropWhile_append]
  cases he : (z.reverse.dropWhile isSpaceChar).isEmpty with
  | true =>
    rw [if_pos rfl]
    rw [List.isEmpty_iff] at he
    rw [he, dropWhile_eq_self_of_all fun c hc => hw c (by simpa using hc)]
    simp
  | false =>
    rw [if_neg (by simp [he])]
    rw [List.reverse_append, List.reverse_reverse]

theorem trimRight_nil : trimRight [] = [] := rfl

/-- `jsTrim` is left-drop followed by `trimRight`. -/
theorem jsTrim_eq_trimRight_dropWhile (l : List Char) :
    jsTrim l = trimRight (l.dropWhile isSpaceChar) := rfl

/-- On a list starting with a non-space character, `jsTrim` is `trimRight`. -/
theorem jsTrim_eq_trimRight {c : Char} (l : List Char)
    (h : isSpaceChar c = false) : jsTrim (c :: l) = trimRight (c :: l) := by
  rw [jsTrim_eq_trimRight_dropWhile,
    List.dropWhile_cons_of_neg (by rw [h]; simp)]

/-- Trimming a leading space: kept iff something survives to its right. -/
theorem trimRight_cons_space (q : List Char) :
    trimRight (' ' :: q) = if trimRight q = [] then [] else ' ' :: trimRight q := by
  unfold trimRight
  rw [show (' ' :: q).reverse = q.reverse ++ [' '] by simp,
    List.dropWhile_append]
  cases he : (q.reverse.dropWhile isSpaceChar).isEmpty with
  | true =>
    rw [if_pos rfl]
    rw [List.isEmpty_iff] at he
    rw [he]
    rw [if_pos (by simp)]
    rw [show List.dropWhile isSpaceChar [' '] = [] by
      rw [List.dropWhile_cons_of_pos (by rw [space_is_space])]; rfl]
    rfl
  | false =>
    rw [if_neg (by simp [he])]
    rw [if_neg (by simp [List.isEmpty_iff] at he; simp [he])]
    simp

/-! ## `joinSpaced` facts -/

theorem joinSpaced_cons (w : List Char) (ws : List (List Char)) (h : ws ≠ []) :
    joinSpaced (w :: ws) = w ++ ' ' :: joinSpaced ws := by
  cases ws with
  | nil => exact absurd rfl h
  | cons w' ws' => rfl

theorem joinSpaced_ne_nil {ws : List (List Char)} (hws : canonWords ws)
    (h : ws ≠ []) : joinSpaced ws ≠ [] := by
  cases ws with
  | nil => exact absurd rfl h
  | cons w ws' =>
    have hw := (hws w (by simp)).1
    cases ws' with
    | nil => exact hw
    | cons w' ws'' =>
      rw [joinSpaced_cons w _ (by simp)]
      simp [hw]

theorem canonWords_cons {w : List Char} {ws : List (List Char)} :
    canonWords (w :: ws) ↔
      (w ≠ [] ∧ (∀ c ∈ w, isWordChar c = true ∧ Char.toLower c = c) ∧
        w ∉ legalSuffixes) ∧ canonWords ws := by
  constructor
  · intro h
    exact ⟨h w (by simp), fun x hx => h x (by simp [hx])⟩
  · rintro ⟨hw, hws⟩ x hx
    rcases List.mem_cons.1 hx with rfl | hx'
    · exact hw
    · exact hws x hx'

/-! ## Canonical names are fixed points of each pipeline stage -/

theorem map_eq_self_of_fixed {f : Char → Char} {l : List Char}
    (h : ∀ c ∈ l, f c = c) : l.map f = l := by
  induction l with
  | nil => rfl
  | cons c r ih =>
    rw [List.map_cons, h c (by simp), ih fun x hx => h x (by simp [hx])]

theorem mem_joinSpaced {ws : List (List Char)} {c : Char}
    (h : c ∈ joinSpaced ws) : c = ' ' ∨ ∃ w ∈ ws, c ∈ w := by
  induction ws with
  | nil => simp [joinSpaced] at h
  | cons w ws' ih =>
    cases ws' with
    | nil => exact Or.inr ⟨w, by simp, h⟩
    | cons w2 ws'' =>
      rw [joinSpaced_cons w _ (by simp)] at h
      rcases List.mem_append.1 h with hw | hrest
      · exact Or.inr ⟨w, by simp, hw⟩
      · rcases List.mem_cons.1 hrest with rfl | hj
        · exact Or.inl rfl
        · rcases ih hj with hsp | ⟨w', hw', hc⟩
          · exact Or.inl hsp
          · exact Or.inr ⟨w', by simp [hw'], hc⟩

theorem jsToLower_joinSpaced {ws : List (List Char)} (hws : canonWords ws) :
    jsToLower (joinSpaced ws) = joinSpaced ws := by
  unfold jsToLower
  apply map_eq_self_of_fixed
  intro c hc
  rcases mem_joinSpaced hc with rfl | ⟨w, hw, hcw⟩
  · exact toLower_of_space space_is_space
  · exact ((hws w hw).2.1 c hcw).2

/-- A spaced join of words starting with a non-empty word starts with one of
that word's characters. -/
theorem joinSpaced_head {w : List Char} (ws : List (List Char)) (hne : w ≠ []) :
    ∃ c r, joinSpaced (w :: ws) = c :: r ∧ c ∈ w := by
  cases w with
  | nil => exact absurd rfl hne
  | cons a w' =>
    cases ws with
    | nil => exact ⟨a, w', rfl, by simp⟩
    | cons w2 ws'' =>
      refine ⟨a, w' ++ ' ' :: joinSpaced (w2 :: ws''), ?_, by simp⟩
      rw [joinSpaced_cons _ _ (by simp), List.cons_append]

theorem strip_joinSpaced {ws : List (List Char)} (hws : canonWords ws) :
    stripSuffixWords false (joinSpaced ws) = joinSpaced ws := by
  induction ws with
  | nil => rfl
  | cons w ws' ih =>
    obtain ⟨⟨hne, hch, hns⟩, hws'⟩ := canonWords_cons.1 hws
    have hwword : ∀ c ∈ w, isWordChar c = true := fun c hc => (hch c hc).1
    cases ws' with
    | nil =>
      show stripSuffixWords false w = w
      have h1 := strip_word_kept (w := w) [] hne hwword (Or.inl rfl) hns
      rw [List.append_nil] at h1
      rw [h1, show stripSuffixWords true ([] : List Char) = [] from rfl,
        List.append_nil]
    | cons w2 ws'' =>
      rw [joinSpaced_cons w _ (by simp)]
      rw [strip_word_kept (' ' :: joinSpaced (w2 :: ws'')) hne hwword
        (Or.inr ⟨' ', joinSpaced (w2 :: ws''), rfl, space_not_word⟩) hns]
      rw [strip_cons_prevW, space_not_word, ih hws']

theorem removeNonWordSpace_joinSpaced {ws : List (List Char)}
    (hws : canonWords ws) :
    removeNonWordSpace (joinSpaced ws) = joinSpaced ws := by
  unfold removeNonWordSpace
  rw [List.filter_eq_self]
  intro c hc
  rcases mem_joinSpaced hc with rfl | ⟨w, hw, hcw⟩
  · simp [space_is_space]
  · simp [((hws w hw).2.1 c hcw).1]

theorem collapseSpaces_joinSpaced {ws : List (List Char)}
    (hws : canonWords ws) :
    collapseSpaces (joinSpaced ws) = joinSpaced ws := by
  unfold collapseSpaces
  induction ws with
  | nil => rfl
  | cons w ws' ih =>
    obtain ⟨⟨hne, hch, _⟩, hws'⟩ := canonWords_cons.1 hws
    have hwns : ∀ c ∈ w, isSpaceChar c = false :=
      fun c hc => wordChar_not_space (hch c hc).1
    cases ws' with
    | nil =>
      show collapseSpacesGo false w = w
      have h1 := collapse_walk_word w [] false hne hwns
      rw [List.append_nil] at h1
      rw [h1, show collapseSpacesGo false ([] : List Char) = [] from rfl,
        List.append_nil]
    | cons w2 ws'' =>
      rw [joinSpaced_cons w _ (by simp),
        collapse_walk_word w _ false hne hwns,
        collapse_cons_space_false _ space_is_space]
      have hw2 := hws w2 (by simp)
      obtain ⟨c, r, hjoin, hcmem⟩ := joinSpaced_head ws'' hw2.1
      have hcs : isSpaceChar c = false :=
        wordChar_not_space (hw2.2.1 c hcmem).1
      have hstate : collapseSpacesGo true (joinSpaced (w2 :: ws'')) =
          collapseSpacesGo false (joinSpaced (w2 :: ws'')) := by
        rw [hjoin, collapse_cons_nonspace r true hcs,
          collapse_cons_nonspace r false hcs]
      rw [hstate, ih hws']

theorem trimRight_joinSpaced {ws : List (List Char)} (hws : canonWords ws) :
    trimRight (joinSpaced ws) = joinSpaced ws := by
  induction ws with
  | nil => rfl
  | cons w ws' ih =>
    obtain ⟨⟨hne, hch, _⟩, hws'⟩ := canonWords_cons.1 hws
    have hwns : ∀ c ∈ w, isSpaceChar c = false :=
      fun c hc => wordChar_not_space (hch c hc).1
    cases ws' with
    | nil =>
      show trimRight w = w
      have h1 := trimRight_append (w := w) (z := []) hwns
      rw [List.append_nil] at h1
      rw [h1, trimRight_nil, List.append_nil]
    | cons w2 ws'' =>
      rw [joinSpaced_cons w _ (by simp), trimRight_append hwns,
        trimRight_cons_space, ih hws']
      rw [if_neg (joinSpaced_ne_nil hws' (by simp))]

theorem jsTrim_joinSpaced {ws : List (List Char)} (hws : canonWords ws) :
    jsTrim (joinSpaced ws) = joinSpaced ws := by
  cases ws with
  | nil => rfl
  | cons w ws' =>
    have hw := hws w (by simp)
    obtain ⟨c, r, hjoin, hcmem⟩ := joinSpaced_head ws' hw.1
    have hcs : isSpaceChar c = false := wordChar_not_space (hw.2.1 c hcmem).1
    rw [hjoin, jsTrim_eq_trimRight r hcs, ← hjoin, trimRight_joinSpaced hws]

/-- A canonical name is a fixed point of the post-lowercasing pipeline. -/
theorem pipeline_fixed {ws : List (List Char)} (hws : canonWords ws) :
    pipelineNoLower (joinSpaced ws) = joinSpaced ws := by
  unfold pipelineNoLower
  rw [strip_joinSpaced hws, removeNonWordSpace_joinSpaced hws,
    collapseSpaces_joinSpaced hws, jsTrim_joinSpaced hws]

/-! ## The pipeline always produces a canonical name -/

theorem removeNWS_cons_keep {c : Char} (l : List Char)
    (h : isWordChar c = true ∨ isSpaceChar c = true) :
    removeNonWordSpace (c :: l) = c :: removeNonWordSpace l := by
  unfold removeNonWordSpace
  rw [List.filter_cons_of_pos]
  rcases h with h' | h' <;> simp [h']

theorem removeNWS_append (a b : List Char) :
    removeNonWordSpace (a ++ b) =
      removeNonWordSpace a ++ removeNonWordSpace b := by
  unfold removeNonWordSpace
  rw [List.filter_append]

theorem removeNWS_id {w : List Char}
    (h : ∀ x ∈ w, isWordChar x = true ∨ isSpaceChar x = true) :
    removeNonWordSpace w = w := by
  unfold removeNonWordSpace
  rw [List.filter_eq_self]
  intro x hx
  rcases h x hx with h' | h' <;> simp [h']

theorem strip_word_id {w : List Char} (hne : w ≠ [])
    (hw : ∀ c ∈ w, isWordChar c = true) (hns : w ∉ legalSuffixes) :
    stripSuffixWords false w = w := by
  have h1 := strip_word_kept (w := w) [] hne hw (Or.inl rfl) hns
  rw [List.append_nil] at h1
  rw [h1, show stripSuffixWords true ([] : List Char) = [] from rfl,
    List.append_nil]

theorem collapse_word_id {w : List Char} (hne : w ≠ [])
    (hwns : ∀ c ∈ w, isSpaceChar c = false) :
    collapseSpacesGo false w = w := by
  have h1 := collapse_walk_word w [] false hne hwns
  rw [List.append_nil] at h1
  rw [h1, show collapseSpacesGo false ([] : List Char) = [] from rfl,
    List.append_nil]

theorem trimRight_word_id {w : List Char}
    (hwns : ∀ c ∈ w, isSpaceChar c = false) : trimRight w = w := by
  have h1 := trimRight_append (w := w) (z := ([] : List Char)) hwns
  rw [List.append_nil] at h1
  rw [h1, trimRight_nil, List.append_nil]

/-- After a non-word character (or at the very start), the scanner state does
not matter. -/
theorem strip_state_nonword_head {t : List Char}
    (ht : t = [] ∨ ∃ d t', t = d :: t' ∧ isWordChar d = false) :
    stripSuffixWords true t = stripSuffixWords false t := by
  rcases ht with rfl | ⟨d, t', rfl, hd⟩
  · rfl
  · rw [strip_cons_prevW, hd, strip_cons_nonword t' false hd]

theorem dropWhile_head_false {p : Char → Bool} :
    ∀ (l : List Char) (d : Char) (t : List Char),
      l.dropWhile p = d :: t → p d = false := by
  intro l
  induction l with
  | nil => intro d t h; cases h
  | cons a l' ih =>
    intro d t h
    by_cases ha : p a
    · rw [List.dropWhile_cons_of_pos ha] at h
      exact ih d t h
    · rw [List.dropWhile_cons_of_neg ha] at h
      injection h with h1 h2
      subst h1
      simpa using ha

/-- A maximal leading word that is not a suffix token prefixes the pipeline
output of the remainder (with a separating space when that output is
non-empty). -/
theorem pipeline_word_head {w t : List Char}
    (hwne : w ≠ []) (hwword : ∀ x ∈ w, isWordChar x = true)
    (hns : w ∉ legalSuffixes)
    (ht : t = [] ∨ ∃ d t', t = d :: t' ∧ isWordChar d = false ∧
      isSpaceChar d = true) :
    pipelineNoLower (w ++ t) =
      w ++ (if pipelineNoLower t = [] then []
            else ' ' :: pipelineNoLower t) := by
  have hwns : ∀ x ∈ w, isSpaceChar x = false :=
    fun x hx => wordChar_not_space (hwword x hx)
  rcases ht with rfl | ⟨d, t', rfl, hdw, hds⟩
  · rw [List.append_nil,
      show pipelineNoLower ([] : List Char) = [] from rfl, if_pos rfl,
      List.append_nil]
    unfold pipelineNoLower
    rw [strip_word_id hwne hwword hns,
      removeNWS_id fun x hx => Or.inl (hwword x hx)]
    show jsTrim (collapseSpacesGo false w) = w
    rw [collapse_word_id hwne hwns]
    cases w with
    | nil => exact absurd rfl hwne
    | cons a w1 =>
      rw [jsTrim_eq_trimRight w1 (hwns a (by simp)),
        trimRight_word_id hwns]
  · have hR : pipelineNoLower (d :: t') =
        jsTrim (collapseSpacesGo true
          (removeNonWordSpace (stripSuffixWords false t'))) := by
      unfold pipelineNoLower
      rw [strip_cons_nonword t' false hdw,
        removeNWS_cons_keep _ (Or.inr hds)]
      show jsTrim (collapseSpacesGo false (d :: _)) = _
      rw [collapse_cons_space_false _ hds, jsTrim_cons_space]
    have hL : pipelineNoLower (w ++ d :: t') =
        w ++ trimRight (' ' :: collapseSpacesGo true
          (removeNonWordSpace (stripSuffixWords false t'))) := by
      unfold pipelineNoLower
      rw [strip_word_kept (d :: t') hwne hwword
          (Or.inr ⟨d, t', rfl, hdw⟩) hns,
        strip_cons_prevW, hdw, removeNWS_append,
        removeNWS_id fun x hx => Or.inl (hwword x hx),
        removeNWS_cons_keep _ (Or.inr hds)]
      show jsTrim (collapseSpacesGo false (w ++ d :: _)) = _
      rw [collapse_walk_word w _ false hwne hwns,
        collapse_cons_space_false _ hds]
      cases w with
      | nil => exact absurd rfl hwne
      | cons a w1 =>
        rw [List.cons_append,
          jsTrim_eq_trimRight _ (hwns a (by simp)),
          ← List.cons_append, trimRight_append hwns]
    rw [hL, trimRight_cons_space]
    have htr : trimRight (collapseSpacesGo true
        (removeNonWordSpace (stripSuffixWords false t'))) =
        jsTrim (collapseSpacesGo true
          (removeNonWordSpace (stripSuffixWords false t'))) := by
      rcases collapse_true_head
          (removeNonWordSpace (stripSuffixWords false t'))
        with h0 | ⟨e, r, h0, hens⟩
      · rw [h0]
        rfl
      · rw [h0, jsTrim_eq_trimRight r hens]
    rw [htr, ← hR]

/-- Every word-or-space input is normalized (after the lowercasing pass) to a
spaced join of canonical words. -/
theorem pipelineNoLower_canon :
    ∀ (n : Nat) (l : List Char), l.length ≤ n →
      (∀ c ∈ l, isWordChar c = true ∨ isSpaceChar c = true) →
      (∀ c ∈ l, Char.toLower c = c) →
      ∃ ws, canonWords ws ∧ pipelineNoLower l = joinSpaced ws := by
  intro n
  induction n with
  | zero =>
    intro l hlen _ _
    have hl : l = [] := by
      cases l with
      | nil => rfl
      | cons c rest => simp at hlen
    subst hl
    exact ⟨[], fun w hw => absurd hw (List.not_mem_nil w), rfl⟩
  | succ n ih =>
    intro l hlen hcls hlow
    cases l with
    | nil => exact ⟨[], fun w hw => absurd hw (List.not_mem_nil w), rfl⟩
    | cons c rest =>
      have hlenr : rest.length ≤ n := by
        simp only [List.length_cons] at hlen
        omega
      cases hsp : isSpaceChar c with
      | true =>
        have hcw : isWordChar c = false := by
          cases hw : isWordChar c with
          | false => rfl
          | true => rw [wordChar_not_space hw] at hsp; cases hsp
        have hstep : pipelineNoLower (c :: rest) = pipelineNoLower rest := by
          unfold pipelineNoLower
          rw [strip_cons_nonword rest false hcw,
            removeNWS_cons_keep _ (Or.inr hsp)]
          unfold collapseSpaces
          rw [collapse_cons_space_false _ hsp, jsTrim_cons_space,
            jsTrim_collapse_state]
        obtain ⟨ws, hws, hp⟩ := ih rest hlenr
          (fun x hx => hcls x (by simp [hx]))
          (fun x hx => hlow x (by simp [hx]))
        exact ⟨ws, hws, by rw [hstep, hp]⟩
      | false =>
        have hcw : isWordChar c = true := by
          rcases hcls c (by simp) with h | h
          · exact h
          · rw [h] at hsp; cases hsp
        have hsplit : (c :: rest.takeWhile isWordChar) ++
            rest.dropWhile isWordChar = c :: rest := by
          rw [List.cons_append, List.takeWhile_append_dropWhile]
        have hwne : (c :: rest.takeWhile isWordChar) ≠ [] := by simp
        have hwword : ∀ x ∈ c :: rest.takeWhile isWordChar,
            isWordChar x = true := by
          intro x hx
          rcases List.mem_cons.1 hx with rfl | hx'
          · exact hcw
          · exact List.mem_takeWhile_imp hx'
        have hmemw : ∀ x ∈ c :: rest.takeWhile isWordChar, x ∈ c :: rest := by
          intro x hx
          rcases List.mem_cons.1 hx with rfl | hx'
          · simp
          · exact List.mem_cons_of_mem c
              ((List.takeWhile_sublist _).subset hx')
        have hmemt : ∀ x ∈ rest.dropWhile isWordChar, x ∈ c :: rest :=
          fun x hx => List.mem_cons_of_mem c
            ((List.dropWhile_sublist _).subset hx)
        have hrest : rest.dropWhile isWordChar = [] ∨
            ∃ d t', rest.dropWhile isWordChar = d :: t' ∧
              isWordChar d = false := by
          cases ht : rest.dropWhile isWordChar with
          | nil => exact Or.inl rfl
          | cons d t' =>
            exact Or.inr ⟨d, t', rfl, dropWhile_head_false rest d t' ht⟩
        have hlent : (rest.dropWhile isWordChar).length ≤ n :=
          le_trans (List.dropWhile_sublist _).length_le hlenr
        obtain ⟨wst, hwst, hpt⟩ := ih (rest.dropWhile isWordChar) hlent
          (fun x hx => hcls x (hmemt x hx))
          (fun x hx => hlow x (hmemt x hx))
        by_cases hmem : (c :: rest.takeWhile isWordChar) ∈ legalSuffixes
        · have hstep : pipelineNoLower (c :: rest) =
              pipelineNoLower (rest.dropWhile isWordChar) := by
            unfold pipelineNoLower
            rw [← hsplit, strip_word_removed _ hwne hwword hrest hmem,
              strip_state_nonword_head hrest]
          exact ⟨wst, hwst, by rw [hstep, hpt]⟩
        · have hrest' : rest.dropWhile isWordChar = [] ∨
              ∃ d t', rest.dropWhile isWordChar = d :: t' ∧
                isWordChar d = false ∧ isSpaceChar d = true := by
            rcases hrest with h0 | ⟨d, t', hdt, hdw⟩
            · exact Or.inl h0
            · refine Or.inr ⟨d, t', hdt, hdw, ?_⟩
              rcases hcls d (hmemt d (by rw [hdt]; simp)) with h' | h'
              · rw [h'] at hdw; cases hdw
              · exact h'
          have hstep : pipelineNoLower (c :: rest) =
              (c :: rest.takeWhile isWordChar) ++
                (if pipelineNoLower (rest.dropWhile isWordChar) = [] then []
                 else ' ' :: pipelineNoLower (rest.dropWhile isWordChar)) := by
            rw [← hsplit]
            exact pipeline_word_head hwne hwword hmem hrest'
          by_cases hwnil : wst = []
          · subst hwnil
            refine ⟨[c :: rest.takeWhile isWordChar], ?_, ?_⟩
            · intro x hx
              rcases List.mem_cons.1 hx with rfl | hx'
              · exact ⟨hwne,
                  fun y hy => ⟨hwword y hy, hlow y (hmemw y hy)⟩, hmem⟩
              · exact absurd hx' (List.not_mem_nil x)
            · rw [hstep, hpt,
                show joinSpaced ([] : List (List Char)) = [] from rfl,
                if_pos rfl, List.append_nil]
              rfl
          · refine ⟨(c :: rest.takeWhile isWordChar) :: wst, ?_, ?_⟩
            · rw [canonWords_cons]
              exact ⟨⟨hwne,
                fun y hy => ⟨hwword y hy, hlow y (hmemw y hy)⟩, hmem⟩, hwst⟩
            · rw [hstep, hpt, if_neg (joinSpaced_ne_nil hwst hwnil),
                joinSpaced_cons _ _ hwnil]

/-- C9 (amended): `normalizeName` is idempotent on every string whose
characters are all word characters (ASCII letters, digits, underscore) or
whitespace — for such inputs,
`normalizeName (normalizeName s) = normalizeName s`. (On arbitrary strings
idempotence fails, see the counterexample: punctuation removal can create a
fresh legal-suffix token.) -/
theorem c9_idempotent_on_word_space (s : String)
    (h : ∀ c ∈ s.toList, isWordChar c = true ∨ isSpaceChar c = true) :
    normalizeName (normalizeName s) = normalizeName s := by
  have hpipe : ∀ (x : String), normalizeName x =
      String.mk (pipelineNoLower (jsToLower x.toList)) := fun x => rfl
  have hcls : ∀ c ∈ jsToLower s.toList,
      isWordChar c = true ∨ isSpaceChar c = true := by
    intro c hc
    rcases List.mem_map.1 hc with ⟨d, hd, rfl⟩
    rcases h d hd with h' | h'
    · exact Or.inl (wordChar_toLower h')
    · exact Or.inr (spaceChar_toLower h')
  have hlow : ∀ c ∈ jsToLower s.toList, Char.toLower c = c := by
    intro c hc
    rcases List.mem_map.1 hc with ⟨d, hd, rfl⟩
    exact toLower_idem d
  obtain ⟨ws, hws, hp⟩ := pipelineNoLower_canon (jsToLower s.toList).length
    (jsToLower s.toList) le_rfl hcls hlow
  rw [hpipe s, hp, hpipe (String.mk (joinSpaced ws)),
    show (String.mk (joinSpaced ws)).toList = joinSpaced ws from rfl,
    jsToLower_joinSpaced hws, pipeline_fixed hws]

/-- Witness for C9 (amended): the word-or-space string "Geek  Squad 2" is a
concrete input on which `normalizeName` is idempotent. -/
theorem c9_idempotent_on_word_space_witness :
    (∀ c ∈ ("Geek  Squad 2" : String).toList,
      isWordChar c = true ∨ isSpaceChar c = true) ∧
      normalizeName (normalizeName "Geek  Squad 2") =
        normalizeName "Geek  Squad 2" :=
  ⟨by decide, c9_idempotent_on_word_space "Geek  Squad 2" (by decide)⟩

/-! ## Matcher helper facts for the resolve-twice analysis -/

theorem upd_id (b : Business) (parsed : ParsedBusiness) (e : String) (t : Nat) :
    (updateLastSeen b parsed e t).id = b.id := rfl

theorem upd_normalizedName (b : Business) (parsed : ParsedBusiness) (e : String)
    (t : Nat) : (updateLastSeen b parsed e t).normalizedName = b.normalizedName :=
  rfl

theorem upd_city (b : Business) (parsed : ParsedBusiness) (e : String) (t : Nat) :
    (updateLastSeen b parsed e t).city = b.city := rfl

theorem upd_googlePlaceId_pos {parsed : ParsedBusiness}
    (b : Business) (e : String) (t : Nat)
    (h : truthy parsed.googlePlaceId = true) :
    (updateLastSeen b parsed e t).googlePlaceId = parsed.googlePlaceId := by
  unfold updateLastSeen
  dsimp only
  rw [if_pos h]

theorem upd_phone_nonbing {parsed : ParsedBusiness}
    (b : Business) (e : String) (t : Nat)
    (hp : truthy parsed.phone = true) (hb : e.startsWith "bing" = false) :
    (updateLastSeen b parsed e t).phone = normalizePhone parsed.phone := by
  unfold updateLastSeen
  dsimp only
  rw [if_pos ⟨hp, by simp [hb]⟩]

theorem upd_phone_bing {parsed : ParsedBusiness}
    (b : Business) (e : String) (t : Nat) (hb : e.startsWith "bing" = true) :
    (updateLastSeen b parsed e t).phone = b.phone := by
  unfold updateLastSeen
  dsimp only
  rw [if_neg fun hc => hc.2 hb]

theorem upd_lat_pos {parsed : ParsedBusiness} (b : Business) (e : String)
    (t : Nat) (hl : parsed.lat.isSome = true) (hg : parsed.lng.isSome = true) :
    (updateLastSeen b parsed e t).lat = parsed.lat := by
  unfold updateLastSeen
  dsimp only
  rw [if_pos ⟨hl, hg⟩]

theorem upd_lng_pos {parsed : ParsedBusiness} (b : Business) (e : String)
    (t : Nat) (hl : parsed.lat.isSome = true) (hg : parsed.lng.isSome = true) :
    (updateLastSeen b parsed e t).lng = parsed.lng := by
  unfold updateLastSeen
  dsimp only
  rw [if_pos ⟨hl, hg⟩]

theorem upd_website_pos {parsed : ParsedBusiness} (b : Business) (e : String)
    (t : Nat) (hw : truthy parsed.website = true) :
    (updateLastSeen b parsed e t).website = parsed.website := by
  unfold updateLastSeen
  dsimp only
  rw [if_pos hw]

theorem upd_website_neg {parsed : ParsedBusiness} (b : Business) (e : String)
    (t : Nat) (hw : truthy parsed.website = false) :
    (updateLastSeen b parsed e t).website = b.website := by
  unfold updateLastSeen
  dsimp only
  rw [if_neg (by simp [hw])]

theorem upd_firstSeenAt (b : Business) (parsed : ParsedBusiness) (e : String)
    (t : Nat) : (updateLastSeen b parsed e t).firstSeenAt = b.firstSeenAt := rfl

theorem upd_lastSeenAt (b : Business) (parsed : ParsedBusiness) (e : String)
    (t : Nat) : (updateLastSeen b parsed e t).lastSeenAt = t := rfl

/-- A normalizable phone is a truthy phone. -/
theorem normalizePhone_truthy {p : Option String} {np : String}
    (h : normalizePhone p = some np) : truthy p = true := by
  cases p with
  | none => simp [normalizePhone] at h
  | some r =>
    by_cases hr : r = ""
    · subst hr
      simp [normalizePhone] at h
    · simp [truthy, hr]

/-- `find?` respects pointwise equality of predicates on the list members. -/
theorem find?_mem_congr {α : Type} {p q : α → Bool} :
    ∀ (l : List α), (∀ x ∈ l, p x = q x) → l.find? p = l.find? q := by
  intro l
  induction l with
  | nil => intro _; rfl
  | cons a l' ih =>
    intro h
    rw [List.find?_cons, List.find?_cons, h a (by simp),
      ih fun x hx => h x (by simp [hx])]

/-- `find?` over an id-targeted update map is `none` when every unchanged row
and every updated row fails the predicate. -/
theorem find?_upd_none {L : List Business} {q : Business → Bool} {i : Nat}
    {u : Business → Business}
    (hall : ∀ b ∈ L, q b = false)
    (hupd : ∀ b ∈ L, b.id = i → q (u b) = false) :
    (L.map fun b => if b.id = i then u b else b).find? q = none := by
  rw [List.find?_map]
  have hn : L.find? (q ∘ fun b => if b.id = i then u b else b) = none := by
    rw [List.find?_eq_none]
    intro b hb
    by_cases hid : b.id = i
    · simp only [Function.comp_apply, if_pos hid, hupd b hb hid]
      exact Bool.false_ne_true
    · simp only [Function.comp_apply, if_neg hid, hall b hb]
      exact Bool.false_ne_true
  rw [hn, Option.map_none']

/-- `find?` over an id-targeted update map hits exactly the updated row when
the rows before it fail the predicate and ids are unique. -/
theorem find?_upd_some {L as bs : List Business} {q : Business → Bool}
    {X : Business} {u : Business → Business}
    (hdec : L = as ++ X :: bs)
    (hne : ∀ a ∈ as, a ≠ X)
    (hqas : ∀ a ∈ as, q a = false)
    (hquX : q (u X) = true)
    (huniq : ∀ b1 ∈ L, ∀ b2 ∈ L, b1.id = b2.id → b1 = b2) :
    (L.map fun b => if b.id = X.id then u b else b).find? q = some (u X) := by
  subst hdec
  have hXmem : X ∈ as ++ X :: bs := by simp
  rw [List.map_append, List.find?_append]
  have hasnone : (as.map fun b => if b.id = X.id then u b else b).find? q
      = none := by
    rw [List.find?_map]
    have hn : as.find? (q ∘ fun b => if b.id = X.id then u b else b) = none := by
      rw [List.find?_eq_none]
      intro a ha
      have hane : a.id ≠ X.id := by
        intro hid
        exact hne a ha (huniq a (by simp [ha]) X hXmem hid)
      simp only [Function.comp_apply, if_neg hane, hqas a ha]
      exact Bool.false_ne_true
    rw [hn, Option.map_none']
  rw [hasnone, Option.none_or, List.map_cons,
    show (if X.id = X.id then u X else X) = u X from if_pos rfl,
    List.find?_cons, hquX]

/-- `find?` over an appended fresh row hits that row when every old row fails
the predicate. -/
theorem find?_append_some {L : List Business} {q : Business → Bool}
    {X : Business} (hall : ∀ b ∈ L, q b = false) (hX : q X = true) :
    (L ++ [X]).find? q = some X := by
  rw [List.find?_append,
    List.find?_eq_none.2 fun b hb => by rw [hall b hb]; exact Bool.false_ne_true,
    Option.none_or, List.find?_cons, hX]

theorem find?_append_none {L : List Business} {q : Business → Bool}
    {X : Business} (hall : ∀ b ∈ L, q b = false) (hX : q X = false) :
    (L ++ [X]).find? q = none := by
  rw [List.find?_eq_none]
  intro b hb
  rcases List.mem_append.1 hb with hb' | hb'
  · rw [hall b hb']
    exact Bool.false_ne_true
  · rw [List.mem_singleton.1 hb', hX]
    exact Bool.false_ne_true

theorem bool_of_not {b : Bool} (h : (!b) = true) : b = false := by
  cases b
  · rfl
  · cases h

theorem bool_of_not_eq_true {b : Bool} (h : ¬ b = true) : b = false := by
  cases b
  · rfl
  · exact absurd rfl h

/-- A tier-2 miss empties the tier-3.5 phone filter. -/
theorem filter_phone_empty {db : MatcherDb} {np : String}
    (h : db.businesses.find? (fun b => b.phone = some np) = none) :
    db.businesses.filter (fun b => b.phone = some np) = [] := by
  rw [List.filter_eq_nil_iff]
  intro a ha
  exact List.find?_eq_none.1 h a ha

/-- Cascade characterization: tier 1 (Google Place ID) hit. -/
theorem findOrCreate_t1 (dist : ℚ → ℚ → ℚ → ℚ → ℚ)
    (nd : Option String → Option String) (now : Nat) (db : MatcherDb)
    (parsed : ParsedBusiness) (e : String) (cid : Option String) {X : Business}
    (h1 : truthy parsed.googlePlaceId = true)
    (hf : db.businesses.find?
      (fun b => b.googlePlaceId = parsed.googlePlaceId) = some X) :
    findOrCreate dist nd now db parsed e cid =
      (⟨X.id, 100, .googlePlaceId⟩, updateLastSeenDb db X.id parsed e now) := by
  simp only [findOrCreate, h1, if_true, hf]

/-- Cascade characterization: tier 2 (phone) hit. -/
theorem findOrCreate_t2 (dist : ℚ → ℚ → ℚ → ℚ → ℚ)
    (nd : Option String → Option String) (now : Nat) (db : MatcherDb)
    (parsed : ParsedBusiness) (e : String) (cid : Option String)
    {np : String} {X : Business}
    (ht1 : (if truthy parsed.googlePlaceId then
        db.businesses.find? fun b => b.googlePlaceId = parsed.googlePlaceId
      else none) = none)
    (hnp : normalizePhone parsed.phone = some np)
    (hf : db.businesses.find? (fun b => b.phone = some np) = some X) :
    findOrCreate dist nd now db parsed e cid =
      (⟨X.id, 90, .phone⟩, updateLastSeenDb db X.id parsed e now) := by
  simp only [findOrCreate, ht1, hnp, hf]

/-- Cascade characterization: tier 3 (normalized name + location) hit. -/
theorem findOrCreate_t3 (dist : ℚ → ℚ → ℚ → ℚ → ℚ)
    (nd : Option String → Option String) (now : Nat) (db : MatcherDb)
    (parsed : ParsedBusiness) (e : String) (cid : Option String)
    {plat plng : ℚ} {X : Business}
    (ht1 : (if truthy parsed.googlePlaceId then
        db.businesses.find? fun b => b.googlePlaceId = parsed.googlePlaceId
      else none) = none)
    (ht2 : normalizePhone parsed.phone = none ∨
      ∃ np, normalizePhone parsed.phone = some np ∧
        db.businesses.find? (fun b => b.phone = some np) = none)
    (hlat : parsed.lat = some plat) (hlng : parsed.lng = some plng)
    (hf : (db.businesses.filter fun b =>
        b.normalizedName = normalizeName parsed.name).find?
      (fun c => match c.lat, c.lng with
        | some cl, some cg => dist cl cg plat plng < 31/1000
        | _, _ => false) = some X) :
    findOrCreate dist nd now db parsed e cid =
      (⟨X.id, 95, .normalizedNameLocation⟩,
        updateLastSeenDb db X.id parsed e now) := by
  rcases ht2 with hnp | ⟨np, hnp, hf2⟩
  · simp only [findOrCreate, ht1, hnp, hlat, hlng, hf]
  · simp only [findOrCreate, ht1, hnp, hf2, hlat, hlng, hf]

/-- Cascade characterization: tier 4 (website domain + city) hit. -/
theorem findOrCreate_t4 (dist : ℚ → ℚ → ℚ → ℚ → ℚ)
    (nd : Option String → Option String) (now : Nat) (db : MatcherDb)
    (parsed : ParsedBusiness) (e : String) (cid : Option String) {X : Business}
    (ht1 : (if truthy parsed.googlePlaceId then
        db.businesses.find? fun b => b.googlePlaceId = parsed.googlePlaceId
      else none) = none)
    (ht2 : normalizePhone parsed.phone = none ∨
      ∃ np, normalizePhone parsed.phone = some np ∧
        db.businesses.find? (fun b => b.phone = some np) = none)
    (ht3 : parsed.lat = none ∨
      (∃ plat, parsed.lat = some plat ∧ parsed.lng = none) ∨
      (∃ plat plng, parsed.lat = some plat ∧ parsed.lng = some plng ∧
        (db.businesses.filter fun b =>
            b.normalizedName = normalizeName parsed.name).find?
          (fun c => match c.lat, c.lng with
            | some cl, some cg => dist cl cg plat plng < 31/1000
            | _, _ => false) = none))
    (hcond : truthy (nd parsed.website) = true ∧ truthy parsed.city = true)
    (hf : (db.businesses.filter fun b =>
        cityEqCI b.city parsed.city ∧ b.website.isSome).find?
      (fun c => nd c.website = nd parsed.website) = some X) :
    findOrCreate dist nd now db parsed e cid =
      (⟨X.id, 80, .websiteDomain⟩, updateLastSeenDb db X.id parsed e now) := by
  rcases ht2 with hnp | ⟨np, hnp, hf2⟩ <;>
    rcases ht3 with hlat | ⟨plat, hlat, hlng⟩ | ⟨plat, plng, hlat, hlng, hf3⟩
  · simp only [findOrCreate, ht1, hnp, hlat]
    rw [if_pos hcond, hf]
  · simp only [findOrCreate, ht1, hnp, hlat, hlng]
    rw [if_pos hcond, hf]
  · simp only [findOrCreate, ht1, hnp, hlat, hlng, hf3]
    rw [if_pos hcond, hf]
  · simp only [findOrCreate, ht1, hnp, hf2, hlat,
      filter_phone_empty hf2, List.find?_nil]
    rw [if_pos hcond, hf]
  · simp only [findOrCreate, ht1, hnp, hf2, hlat, hlng,
      filter_phone_empty hf2, List.find?_nil]
    rw [if_pos hcond, hf]
  · simp only [findOrCreate, ht1, hnp, hf2, hlat, hlng, hf3,
      filter_phone_empty hf2, List.find?_nil]
    rw [if_pos hcond, hf]

/-- Cascade characterization: no tier hits — a new business is created. -/
theorem findOrCreate_t5 (dist : ℚ → ℚ → ℚ → ℚ → ℚ)
    (nd : Option String → Option String) (now : Nat) (db : MatcherDb)
    (parsed : ParsedBusiness) (e : String) (cid : Option String)
    (ht1 : (if truthy parsed.googlePlaceId then
        db.businesses.find? fun b => b.googlePlaceId = parsed.googlePlaceId
      else none) = none)
    (ht2 : normalizePhone parsed.phone = none ∨
      ∃ np, normalizePhone parsed.phone = some np ∧
        db.businesses.find? (fun b => b.phone = some np) = none)
    (ht3 : parsed.lat = none ∨
      (∃ plat, parsed.lat = some plat ∧ parsed.lng = none) ∨
      (∃ plat plng, parsed.lat = some plat ∧ parsed.lng = some plng ∧
        (db.businesses.filter fun b =>
            b.normalizedName = normalizeName parsed.name).find?
          (fun c => match c.lat, c.lng with
            | some cl, some cg => dist cl cg plat plng < 31/1000
            | _, _ => false) = none))
    (ht4 : ¬(truthy (nd parsed.website) = true ∧ truthy parsed.city = true) ∨
      (db.businesses.filter fun b =>
          cityEqCI b.city parsed.city ∧ b.website.isSome).find?
        (fun c => nd c.website = nd parsed.website) = none) :
    findOrCreate dist nd now db parsed e cid =
      (⟨(createBusiness db parsed (normalizeName parsed.name)
          (normalizePhone parsed.phone) e cid now).1.id, 0, .new⟩,
        (createBusiness db parsed (normalizeName parsed.name)
          (normalizePhone parsed.phone) e cid now).2) := by
  have ht4' : (if truthy (nd parsed.website) ∧ truthy parsed.city then
      (db.businesses.filter fun b =>
          cityEqCI b.city parsed.city ∧ b.website.isSome).find?
        (fun c => nd c.website = nd parsed.website)
    else none) = none := by
    rcases ht4 with hc4 | hf4
    · rw [if_neg hc4]
    · by_cases hc : truthy (nd parsed.website) = true ∧ truthy parsed.city = true
      · rw [if_pos hc, hf4]
      · rw [if_neg hc]
  rcases ht2 with hnp | ⟨np, hnp, hf2⟩ <;>
    rcases ht3 with hlat | ⟨plat, hlat, hlng⟩ | ⟨plat, plng, hlat, hlng, hf3⟩
  · simp only [findOrCreate, ht1, hnp, hlat, ht4']
  · simp only [findOrCreate, ht1, hnp, hlat, hlng, ht4']
  · simp only [findOrCreate, ht1, hnp, hlat, hlng, hf3, ht4']
  · simp only [findOrCreate, ht1, hnp, hf2, hlat,
      filter_phone_empty hf2, List.find?_nil, ht4']
  · simp only [findOrCreate, ht1, hnp, hf2, hlat, hlng,
      filter_phone_empty hf2, List.find?_nil, ht4']
  · simp only [findOrCreate, ht1, hnp, hf2, hlat, hlng, hf3,
      filter_phone_empty hf2, List.find?_nil, ht4']

/-- Common conclusion of the resolve-twice analysis: the two calls agree on
the business id, the second call is a match (not a creation), allocates
nothing, and rewrites the matched row through `updateLastSeen`. -/
theorem c4_conclude {r1 r2 : BusinessMatch × MatcherDb} {id1 c1 c2 : Nat}
    {mt1 mt2 : MatchType} {db1 : MatcherDb} (parsed : ParsedBusiness)
    (e : String) (t2 : Nat)
    (he1 : r1 = (⟨id1, c1, mt1⟩, db1))
    (he2 : r2 = (⟨id1, c2, mt2⟩, updateLastSeenDb db1 id1 parsed e t2))
    (hmt : mt2 = MatchType.new → False) :
    r2.1.businessId = r1.1.businessId ∧ r2.1.createdNew = false ∧
      r2.2.nextId = r1.2.nextId ∧
      r2.2.businesses = r1.2.businesses.map (fun b =>
        if b.id = r1.1.businessId then updateLastSeen b parsed e t2 else b) ∧
      (∀ b : Business,
        (updateLastSeen b parsed e t2).firstSeenAt = b.firstSeenAt ∧
        (updateLastSeen b parsed e t2).lastSeenAt = t2) := by
  subst he1
  subst he2
  refine ⟨rfl, ?_, rfl, rfl, fun b => ⟨rfl, rfl⟩⟩
  unfold BusinessMatch.createdNew
  simp only [decide_eq_false_iff_not]
  exact hmt

/-- Resolve-twice, creation case: when the first call hits no tier and creates
a row carrying a matchable identifier, the second call matches that row. -/
theorem c4_t5_leaf (dist : ℚ → ℚ → ℚ → ℚ → ℚ)
    (nd : Option String → Option String) (db : MatcherDb)
    (parsed : ParsedBusiness) (e : String) (cid : Option String) (t1 t2 : Nat)
    (hdist : ∀ a b, dist a b a b = 0)
    (hT1 : (if truthy parsed.googlePlaceId then
        db.businesses.find? fun b => b.googlePlaceId = parsed.googlePlaceId
      else none) = none)
    (ht2 : normalizePhone parsed.phone = none ∨
      ∃ np, normalizePhone parsed.phone = some np ∧
        db.businesses.find? (fun b => b.phone = some np) = none)
    (ht3 : parsed.lat = none ∨
      (∃ plat, parsed.lat = some plat ∧ parsed.lng = none) ∨
      (∃ plat plng, parsed.lat = some plat ∧ parsed.lng = some plng ∧
        (db.businesses.filter fun b =>
            b.normalizedName = normalizeName parsed.name).find?
          (fun c => match c.lat, c.lng with
            | some cl, some cg => dist cl cg plat plng < 31/1000
            | _, _ => false) = none))
    (ht4 : ¬(truthy (nd parsed.website) = true ∧ truthy parsed.city = true) ∨
      (db.businesses.filter fun b =>
          cityEqCI b.city parsed.city ∧ b.website.isSome).find?
        (fun c => nd c.website = nd parsed.website) = none)
    (hm : truthy parsed.googlePlaceId = true ∨
      (∃ np, normalizePhone parsed.phone = some np) ∨
      (parsed.lat.isSome = true ∧ parsed.lng.isSome = true) ∨
      (truthy parsed.website = true ∧ truthy (nd parsed.website) = true ∧
        truthy parsed.city = true)) :
    ∀ r1 r2 : BusinessMatch × MatcherDb,
      r1 = findOrCreate dist nd t1 db parsed e cid →
      r2 = findOrCreate dist nd t2 r1.2 parsed e cid →
      r2.1.businessId = r1.1.businessId ∧ r2.1.createdNew = false ∧
      r2.2.nextId = r1.2.nextId ∧
      r2.2.businesses = r1.2.businesses.map (fun b =>
        if b.id = r1.1.businessId then updateLastSeen b parsed e t2 else b) ∧
      (∀ b : Business,
        (updateLastSeen b parsed e t2).firstSeenAt = b.firstSeenAt ∧
        (updateLastSeen b parsed e t2).lastSeenAt = t2) := by
  intro r1 r2 he1 he2
  have e1 := findOrCreate_t5 dist nd t1 db parsed e cid hT1 ht2 ht3 ht4
  have he1' : r1 = (⟨(createBusiness db parsed (normalizeName parsed.name)
      (normalizePhone parsed.phone) e cid t1).1.id, 0, .new⟩,
      (createBusiness db parsed (normalizeName parsed.name)
        (normalizePhone parsed.phone) e cid t1).2) := he1.trans e1
  have hdb1 : (createBusiness db parsed (normalizeName parsed.name)
      (normalizePhone parsed.phone) e cid t1).2.businesses =
      db.businesses ++ [(createBusiness db parsed (normalizeName parsed.name)
        (normalizePhone parsed.phone) e cid t1).1] := rfl
  set C := createBusiness db parsed (normalizeName parsed.name)
    (normalizePhone parsed.phone) e cid t1 with hC
  by_cases h1c : truthy parsed.googlePlaceId = true
  · -- the created row is found by its Google Place ID
    have hT1' : db.businesses.find?
        (fun b => b.googlePlaceId = parsed.googlePlaceId) = none := by
      rw [if_pos h1c] at hT1
      exact hT1
    have hf1' : C.2.businesses.find?
        (fun b => b.googlePlaceId = parsed.googlePlaceId) = some C.1 := by
      rw [hdb1]
      refine find?_append_some (fun b hb => by
        simpa using List.find?_eq_none.1 hT1' b hb) ?_
      show decide (C.1.googlePlaceId = parsed.googlePlaceId) = true
      rw [show C.1.googlePlaceId = parsed.googlePlaceId from rfl]
      simp
    have e2 := findOrCreate_t1 dist nd t2 C.2 parsed e cid h1c hf1'
    have he2' : r2 = (⟨C.1.id, 100, .googlePlaceId⟩,
        updateLastSeenDb C.2 C.1.id parsed e t2) := by
      rw [he2, he1']
      exact e2
    exact c4_conclude parsed e t2 he1' he2' fun h => MatchType.noConfusion h
  · have ht1' : (if truthy parsed.googlePlaceId then
        C.2.businesses.find? fun b => b.googlePlaceId = parsed.googlePlaceId
      else none) = none := if_neg h1c
    cases hnp : normalizePhone parsed.phone with
    | some np =>
      -- the created row is found by its normalized phone
      have hf2none : db.businesses.find? (fun b => b.phone = some np)
          = none := by
        rcases ht2 with h | ⟨np', hnp', hfn⟩
        · rw [hnp] at h
          cases h
        · rw [hnp] at hnp'
          injection hnp' with h'
          rw [← h'] at hfn
          exact hfn
      have hf2' : C.2.businesses.find? (fun b => b.phone = some np)
          = some C.1 := by
        rw [hdb1]
        refine find?_append_some (fun b hb => by
          simpa using List.find?_eq_none.1 hf2none b hb) ?_
        show decide (C.1.phone = some np) = true
        rw [show C.1.phone = normalizePhone parsed.phone from rfl, hnp]
        simp
      have e2 := findOrCreate_t2 dist nd t2 C.2 parsed e cid ht1' hnp hf2'
      have he2' : r2 = (⟨C.1.id, 90, .phone⟩,
          updateLastSeenDb C.2 C.1.id parsed e t2) := by
        rw [he2, he1']
        exact e2
      exact c4_conclude parsed e t2 he1' he2' fun h => MatchType.noConfusion h
    | none =>
      have ht2' : normalizePhone parsed.phone = none ∨
          ∃ np, normalizePhone parsed.phone = some np ∧
            C.2.businesses.find? (fun b => b.phone = some np) = none :=
        Or.inl hnp
      cases hlat : parsed.lat with
      | some plat =>
        cases hlng : parsed.lng with
        | some plng =>
          -- the created row is found by name + location
          have hf3none : (db.businesses.filter fun b =>
              b.normalizedName = normalizeName parsed.name).find?
            (fun c => match c.lat, c.lng with
              | some cl, some cg => dist cl cg plat plng < 31/1000
              | _, _ => false) = none := by
            rcases ht3 with h | ⟨plat', h, h'⟩ | ⟨plat', plng', h, h', hfn⟩
            · rw [hlat] at h
              cases h
            · rw [hlng] at h'
              cases h'
            · rw [hlat] at h
              injection h with h
              rw [hlng] at h'
              injection h' with h'
              rw [← h, ← h'] at hfn
              exact hfn
          have hf3' : (C.2.businesses.filter fun b =>
              b.normalizedName = normalizeName parsed.name).find?
            (fun c => match c.lat, c.lng with
              | some cl, some cg => dist cl cg plat plng < 31/1000
              | _, _ => false) = some C.1 := by
            rw [hdb1, List.find?_filter]
            rw [List.find?_filter] at hf3none
            refine find?_append_some (fun b hb => by
              simpa using List.find?_eq_none.1 hf3none b hb) ?_
            rw [decide_eq_true_eq]
            constructor
            · rw [show C.1.normalizedName = normalizeName parsed.name from rfl]
              simp
            · rw [show C.1.lat = parsed.lat from rfl,
                show C.1.lng = parsed.lng from rfl, hlat, hlng]
              show decide (dist plat plng plat plng < 31/1000) = true
              rw [hdist plat plng]
              norm_num
          have e2 := findOrCreate_t3 dist nd t2 C.2 parsed e cid ht1' ht2'
            hlat hlng hf3'
          have he2' : r2 = (⟨C.1.id, 95, .normalizedNameLocation⟩,
              updateLastSeenDb C.2 C.1.id parsed e t2) := by
            rw [he2, he1']
            exact e2
          exact c4_conclude parsed e t2 he1' he2'
            fun h => MatchType.noConfusion h
        | none =>
          -- no coordinates: the created row is found by website domain + city
          rcases hm with h | ⟨np', hnp'⟩ | ⟨hl, hg⟩ | ⟨hweb, hnd, hcity⟩
          · exact absurd h h1c
          · rw [hnp] at hnp'
            cases hnp'
          · rw [hlng] at hg
            simp at hg
          · have hf4none : (db.businesses.filter fun b =>
                cityEqCI b.city parsed.city ∧ b.website.isSome).find?
              (fun c => nd c.website = nd parsed.website) = none := by
              rcases ht4 with hc4 | hf4
              · exact absurd ⟨hnd, hcity⟩ hc4
              · exact hf4
            have hf4' : (C.2.businesses.filter fun b =>
                cityEqCI b.city parsed.city ∧ b.website.isSome).find?
              (fun c => nd c.website = nd parsed.website) = some C.1 := by
              rw [hdb1, List.find?_filter]
              rw [List.find?_filter] at hf4none
              refine find?_append_some (fun b hb => by
                simpa using List.find?_eq_none.1 hf4none b hb) ?_
              rw [decide_eq_true_eq]
              constructor
              · rw [decide_eq_true_eq]
                constructor
                · rw [show C.1.city = parsed.city from rfl]
                  cases hcc : parsed.city with
                  | none => rw [hcc] at hcity; cases hcity
                  | some c => simp [cityEqCI]
                · rw [show C.1.website = parsed.website from rfl]
                  cases hww : parsed.website with
                  | none => rw [hww] at hweb; cases hweb
                  | some w => rfl
              · rw [show C.1.website = parsed.website from rfl]
                simp
            have e2 := findOrCreate_t4 dist nd t2 C.2 parsed e cid ht1' ht2'
              (Or.inr (Or.inl ⟨plat, hlat, hlng⟩)) ⟨hnd, hcity⟩ hf4'
            have he2' : r2 = (⟨C.1.id, 80, .websiteDomain⟩,
                updateLastSeenDb C.2 C.1.id parsed e t2) := by
              rw [he2, he1']
              exact e2
            exact c4_conclude parsed e t2 he1' he2'
              fun h => MatchType.noConfusion h
      | none =>
        -- no latitude: the created row is found by website domain + city
        rcases hm with h | ⟨np', hnp'⟩ | ⟨hl, hg⟩ | ⟨hweb, hnd, hcity⟩
        · exact absurd h h1c
        · rw [hnp] at hnp'
          cases hnp'
        · rw [hlat] at hl
          simp at hl
        · have hf4none : (db.businesses.filter fun b =>
              cityEqCI b.city parsed.city ∧ b.website.isSome).find?
            (fun c => nd c.website = nd parsed.website) = none := by
            rcases ht4 with hc4 | hf4
            · exact absurd ⟨hnd, hcity⟩ hc4
            · exact hf4
          have hf4' : (C.2.businesses.filter fun b =>
              cityEqCI b.city parsed.city ∧ b.website.isSome).find?
            (fun c => nd c.website = nd parsed.website) = some C.1 := by
            rw [hdb1, List.find?_filter]
            rw [List.find?_filter] at hf4none
            refine find?_append_some (fun b hb => by
              simpa using List.find?_eq_none.1 hf4none b hb) ?_
            rw [decide_eq_true_eq]
            constructor
            · rw [decide_eq_true_eq]
              constructor
              · rw [show C.1.city = parsed.city from rfl]
                cases hcc : parsed.city with
                | none => rw [hcc] at hcity; cases hcity
                | some c => simp [cityEqCI]
              · rw [show C.1.website = parsed.website from rfl]
                cases hww : parsed.website with
                | none => rw [hww] at hweb; cases hweb
                | some w => rfl
            · rw [show C.1.website = parsed.website from rfl]
              simp
          have e2 := findOrCreate_t4 dist nd t2 C.2 parsed e cid ht1' ht2'
            (Or.inl hlat) ⟨hnd, hcity⟩ hf4'
          have he2' : r2 = (⟨C.1.id, 80, .websiteDomain⟩,
              updateLastSeenDb C.2 C.1.id parsed e t2) := by
            rw [he2, he1']
            exact e2
          exact c4_conclude parsed e t2 he1' he2'
            fun h => MatchType.noConfusion h

/-- Resolve-twice, tier-1 case: a Google-Place-ID match re-matches by place
id (the update writes the parsed place id into the matched row). -/
theorem c4_t1_leaf (dist : ℚ → ℚ → ℚ → ℚ → ℚ)
    (nd : Option String → Option String) (db : MatcherDb)
    (parsed : ParsedBusiness) (e : String) (cid : Option String) (t1 t2 : Nat)
    (huniq : ∀ b1 ∈ db.businesses, ∀ b2 ∈ db.businesses,
      b1.id = b2.id → b1 = b2)
    {X : Business}
    (h1c : truthy parsed.googlePlaceId = true)
    (hf1 : db.businesses.find?
      (fun b => b.googlePlaceId = parsed.googlePlaceId) = some X) :
    ∀ r1 r2 : BusinessMatch × MatcherDb,
      r1 = findOrCreate dist nd t1 db parsed e cid →
      r2 = findOrCreate dist nd t2 r1.2 parsed e cid →
      r2.1.businessId = r1.1.businessId ∧ r2.1.createdNew = false ∧
      r2.2.nextId = r1.2.nextId ∧
      r2.2.businesses = r1.2.businesses.map (fun b =>
        if b.id = r1.1.businessId then updateLastSeen b parsed e t2 else b) ∧
      (∀ b : Business,
        (updateLastSeen b parsed e t2).firstSeenAt = b.firstSeenAt ∧
        (updateLastSeen b parsed e t2).lastSeenAt = t2) := by
  intro r1 r2 he1 he2
  have e1 := findOrCreate_t1 dist nd t1 db parsed e cid h1c hf1
  have he1' : r1 = (⟨X.id, 100, .googlePlaceId⟩,
      updateLastSeenDb db X.id parsed e t1) := he1.trans e1
  have hdb1 : (updateLastSeenDb db X.id parsed e t1).businesses =
      db.businesses.map (fun b =>
        if b.id = X.id then updateLastSeen b parsed e t1 else b) := rfl
  obtain ⟨hqX, as, bs, hdec, hask'⟩ := List.find?_eq_some.1 hf1
  have hne : ∀ a ∈ as, a ≠ X := by
    intro a ha heq
    have h := hask' a ha
    rw [heq, hqX] at h
    simp at h
  have hf1'' : (updateLastSeenDb db X.id parsed e t1).businesses.find?
      (fun b => b.googlePlaceId = parsed.googlePlaceId)
      = some (updateLastSeen X parsed e t1) := by
    rw [hdb1]
    refine find?_upd_some hdec hne (fun a ha => by simpa using hask' a ha)
      ?_ huniq
    show decide ((updateLastSeen X parsed e t1).googlePlaceId
      = parsed.googlePlaceId) = true
    rw [upd_googlePlaceId_pos X e t1 h1c]
    simp
  have e2 := findOrCreate_t1 dist nd t2 (updateLastSeenDb db X.id parsed e t1)
    parsed e cid h1c hf1''
  rw [upd_id] at e2
  exact c4_conclude parsed e t2 he1' (by rw [he2, he1']; exact e2)
    fun h => MatchType.noConfusion h

/-- Resolve-twice, tier-2 case: a phone match re-matches (by the acquired
place id, or by the phone, which the update preserves or rewrites to the same
normalized value). -/
theorem c4_t2_leaf (dist : ℚ → ℚ → ℚ → ℚ → ℚ)
    (nd : Option String → Option String) (db : MatcherDb)
    (parsed : ParsedBusiness) (e : String) (cid : Option String) (t1 t2 : Nat)
    (huniq : ∀ b1 ∈ db.businesses, ∀ b2 ∈ db.businesses,
      b1.id = b2.id → b1 = b2)
    {np : String} {X : Business}
    (hT1 : (if truthy parsed.googlePlaceId then
        db.businesses.find? fun b => b.googlePlaceId = parsed.googlePlaceId
      else none) = none)
    (hnp : normalizePhone parsed.phone = some np)
    (hf2 : db.businesses.find? (fun b => b.phone = some np) = some X) :
    ∀ r1 r2 : BusinessMatch × MatcherDb,
      r1 = findOrCreate dist nd t1 db parsed e cid →
      r2 = findOrCreate dist nd t2 r1.2 parsed e cid →
      r2.1.businessId = r1.1.businessId ∧ r2.1.createdNew = false ∧
      r2.2.nextId = r1.2.nextId ∧
      r2.2.businesses = r1.2.businesses.map (fun b =>
        if b.id = r1.1.businessId then updateLastSeen b parsed e t2 else b) ∧
      (∀ b : Business,
        (updateLastSeen b parsed e t2).firstSeenAt = b.firstSeenAt ∧
        (updateLastSeen b parsed e t2).lastSeenAt = t2) := by
  intro r1 r2 he1 he2
  have e1 := findOrCreate_t2 dist nd t1 db parsed e cid hT1 hnp hf2
  have he1' : r1 = (⟨X.id, 90, .phone⟩,
      updateLastSeenDb db X.id parsed e t1) := he1.trans e1
  have hdb1 : (updateLastSeenDb db X.id parsed e t1).businesses =
      db.businesses.map (fun b =>
        if b.id = X.id then updateLastSeen b parsed e t1 else b) := rfl
  obtain ⟨hqX, as, bs, hdec, hask'⟩ := List.find?_eq_some.1 hf2
  have hne : ∀ a ∈ as, a ≠ X := by
    intro a ha heq
    have h := hask' a ha
    rw [heq, hqX] at h
    simp at h
  have hup : (updateLastSeen X parsed e t1).phone = some np := by
    by_cases hbing : e.startsWith "bing" = true
    · rw [upd_phone_bing X e t1 hbing]
      simpa using hqX
    · rw [upd_phone_nonbing X e t1 (normalizePhone_truthy hnp)
        (by simpa using hbing)]
      exact hnp
  by_cases h1c : truthy parsed.googlePlaceId = true
  · have hT1' : db.businesses.find?
        (fun b => b.googlePlaceId = parsed.googlePlaceId) = none := by
      rw [if_pos h1c] at hT1
      exact hT1
    have hf1'' : (updateLastSeenDb db X.id parsed e t1).businesses.find?
        (fun b => b.googlePlaceId = parsed.googlePlaceId)
        = some (updateLastSeen X parsed e t1) := by
      rw [hdb1]
      refine find?_upd_some hdec hne (fun a ha => by
        simpa using List.find?_eq_none.1 hT1' a (by rw [hdec]; simp [ha]))
        ?_ huniq
      show decide ((updateLastSeen X parsed e t1).googlePlaceId
        = parsed.googlePlaceId) = true
      rw [upd_googlePlaceId_pos X e t1 h1c]
      simp
    have e2 := findOrCreate_t1 dist nd t2
      (updateLastSeenDb db X.id parsed e t1) parsed e cid h1c hf1''
    rw [upd_id] at e2
    exact c4_conclude parsed e t2 he1' (by rw [he2, he1']; exact e2)
      fun h => MatchType.noConfusion h
  · have ht1'' : (if truthy parsed.googlePlaceId then
        (updateLastSeenDb db X.id parsed e t1).businesses.find? fun b =>
          b.googlePlaceId = parsed.googlePlaceId
      else none) = none := if_neg h1c
    have hf2'' : (updateLastSeenDb db X.id parsed e t1).businesses.find?
        (fun b => b.phone = some np) = some (updateLastSeen X parsed e t1) := by
      rw [hdb1]
      refine find?_upd_some hdec hne (fun a ha => by simpa using hask' a ha)
        ?_ huniq
      show decide ((updateLastSeen X parsed e t1).phone = some np) = true
      rw [hup]
      simp
    have e2 := findOrCreate_t2 dist nd t2
      (updateLastSeenDb db X.id parsed e t1) parsed e cid ht1'' hnp hf2''
    rw [upd_id] at e2
    exact c4_conclude parsed e t2 he1' (by rw [he2, he1']; exact e2)
      fun h => MatchType.noConfusion h

/-- Resolve-twice, tier-3 case: a name+location match re-matches (by acquired
place id, by rewritten phone, or again by name+location, since the update
writes the parsed coordinates and keeps the normalized name). -/
theorem c4_t3_leaf (dist : ℚ → ℚ → ℚ → ℚ → ℚ)
    (nd : Option String → Option String) (db : MatcherDb)
    (parsed : ParsedBusiness) (e : String) (cid : Option String) (t1 t2 : Nat)
    (hdist : ∀ a b, dist a b a b = 0)
    (huniq : ∀ b1 ∈ db.businesses, ∀ b2 ∈ db.businesses,
      b1.id = b2.id → b1 = b2)
    {plat plng : ℚ} {X : Business}
    (hT1 : (if truthy parsed.googlePlaceId then
        db.businesses.find? fun b => b.googlePlaceId = parsed.googlePlaceId
      else none) = none)
    (ht2 : normalizePhone parsed.phone = none ∨
      ∃ np, normalizePhone parsed.phone = some np ∧
        db.businesses.find? (fun b => b.phone = some np) = none)
    (hlat : parsed.lat = some plat) (hlng : parsed.lng = some plng)
    (hf3 : (db.businesses.filter fun b =>
        b.normalizedName = normalizeName parsed.name).find?
      (fun c => match c.lat, c.lng with
        | some cl, some cg => dist cl cg plat plng < 31/1000
        | _, _ => false) = some X) :
    ∀ r1 r2 : BusinessMatch × MatcherDb,
      r1 = findOrCreate dist nd t1 db parsed e cid →
      r2 = findOrCreate dist nd t2 r1.2 parsed e cid →
      r2.1.businessId = r1.1.businessId ∧ r2.1.createdNew = false ∧
      r2.2.nextId = r1.2.nextId ∧
      r2.2.businesses = r1.2.businesses.map (fun b =>
        if b.id = r1.1.businessId then updateLastSeen b parsed e t2 else b) ∧
      (∀ b : Business,
        (updateLastSeen b parsed e t2).firstSeenAt = b.firstSeenAt ∧
        (updateLastSeen b parsed e t2).lastSeenAt = t2) := by
  intro r1 r2 he1 he2
  have e1 := findOrCreate_t3 dist nd t1 db parsed e cid hT1 ht2 hlat hlng hf3
  have he1' : r1 = (⟨X.id, 95, .normalizedNameLocation⟩,
      updateLastSeenDb db X.id parsed e t1) := he1.trans e1
  have hdb1 : (updateLastSeenDb db X.id parsed e t1).businesses =
      db.businesses.map (fun b =>
        if b.id = X.id then updateLastSeen b parsed e t1 else b) := rfl
  rw [List.find?_filter] at hf3
  obtain ⟨hqX, as, bs, hdec, hask'⟩ := List.find?_eq_some.1 hf3
  have hne : ∀ a ∈ as, a ≠ X := by
    intro a ha heq
    have h := hask' a ha
    rw [heq, hqX] at h
    simp at h
  have hXmem : X ∈ db.businesses := by
    rw [hdec]
    simp
  have hqX' := hqX
  rw [decide_eq_true_eq] at hqX'
  obtain ⟨hname, -⟩ := hqX'
  have hf3'' : ((updateLastSeenDb db X.id parsed e t1).businesses.filter
      fun b => b.normalizedName = normalizeName parsed.name).find?
    (fun c => match c.lat, c.lng with
      | some cl, some cg => dist cl cg plat plng < 31/1000
      | _, _ => false) = some (updateLastSeen X parsed e t1) := by
    rw [hdb1, List.find?_filter]
    refine find?_upd_some hdec hne (fun a ha => bool_of_not (hask' a ha))
      ?_ huniq
    rw [decide_eq_true_eq]
    constructor
    · rw [upd_normalizedName]
      exact hname
    · rw [upd_lat_pos X e t1 (by rw [hlat]; rfl) (by rw [hlng]; rfl),
        upd_lng_pos X e t1 (by rw [hlat]; rfl) (by rw [hlng]; rfl),
        hlat, hlng]
      show decide (dist plat plng plat plng < 31/1000) = true
      rw [hdist plat plng]
      norm_num
  by_cases h1c : truthy parsed.googlePlaceId = true
  · have hT1' : db.businesses.find?
        (fun b => b.googlePlaceId = parsed.googlePlaceId) = none := by
      rw [if_pos h1c] at hT1
      exact hT1
    have hf1'' : (updateLastSeenDb db X.id parsed e t1).businesses.find?
        (fun b => b.googlePlaceId = parsed.googlePlaceId)
        = some (updateLastSeen X parsed e t1) := by
      rw [hdb1]
      refine find?_upd_some hdec hne (fun a ha => by
        simpa using List.find?_eq_none.1 hT1' a (by rw [hdec]; simp [ha]))
        ?_ huniq
      show decide ((updateLastSeen X parsed e t1).googlePlaceId
        = parsed.googlePlaceId) = true
      rw [upd_googlePlaceId_pos X e t1 h1c]
      simp
    have e2 := findOrCreate_t1 dist nd t2
      (updateLastSeenDb db X.id parsed e t1) parsed e cid h1c hf1''
    rw [upd_id] at e2
    exact c4_conclude parsed e t2 he1' (by rw [he2, he1']; exact e2)
      fun h => MatchType.noConfusion h
  · have ht1'' : (if truthy parsed.googlePlaceId then
        (updateLastSeenDb db X.id parsed e t1).businesses.find? fun b =>
          b.googlePlaceId = parsed.googlePlaceId
      else none) = none := if_neg h1c
    cases hnp : normalizePhone parsed.phone with
    | some np =>
      have hf2none : db.businesses.find? (fun b => b.phone = some np)
          = none := by
        rcases ht2 with h | ⟨np', hnp', hfn⟩
        · rw [hnp] at h
          cases h
        · rw [hnp] at hnp'
          injection hnp' with h'
          rw [← h'] at hfn
          exact hfn
      by_cases hbing : e.startsWith "bing" = true
      · have hf2''none : (updateLastSeenDb db X.id parsed e t1).businesses.find?
            (fun b => b.phone = some np) = none := by
          rw [hdb1]
          refine find?_upd_none (fun b hb => by
            simpa using List.find?_eq_none.1 hf2none b hb) ?_
          intro b hb hid
          have hbX : b = X := huniq b hb X hXmem hid
          rw [hbX]
          show decide ((updateLastSeen X parsed e t1).phone = some np) = false
          rw [upd_phone_bing X e t1 hbing]
          simpa using List.find?_eq_none.1 hf2none X hXmem
        have e2 := findOrCreate_t3 dist nd t2
          (updateLastSeenDb db X.id parsed e t1) parsed e cid ht1''
          (Or.inr ⟨np, hnp, hf2''none⟩) hlat hlng hf3''
        rw [upd_id] at e2
        exact c4_conclude parsed e t2 he1' (by rw [he2, he1']; exact e2)
          fun h => MatchType.noConfusion h
      · have hup : (updateLastSeen X parsed e t1).phone = some np := by
          rw [upd_phone_nonbing X e t1 (normalizePhone_truthy hnp)
            (by simpa using hbing)]
          exact hnp
        have hf2'' : (updateLastSeenDb db X.id parsed e t1).businesses.find?
            (fun b => b.phone = some np)
            = some (updateLastSeen X parsed e t1) := by
          rw [hdb1]
          refine find?_upd_some hdec hne (fun a ha => by
            simpa using List.find?_eq_none.1 hf2none a (by rw [hdec]; simp [ha]))
            ?_ huniq
          show decide ((updateLastSeen X parsed e t1).phone = some np) = true
          rw [hup]
          simp
        have e2 := findOrCreate_t2 dist nd t2
          (updateLastSeenDb db X.id parsed e t1) parsed e cid ht1'' hnp hf2''
        rw [upd_id] at e2
        exact c4_conclude parsed e t2 he1' (by rw [he2, he1']; exact e2)
          fun h => MatchType.noConfusion h
    | none =>
      have e2 := findOrCreate_t3 dist nd t2
        (updateLastSeenDb db X.id parsed e t1) parsed e cid ht1''
        (Or.inl hnp) hlat hlng hf3''
      rw [upd_id] at e2
      exact c4_conclude parsed e t2 he1' (by rw [he2, he1']; exact e2)
        fun h => MatchType.noConfusion h

/-- Resolve-twice, tier-4 case: a website-domain+city match re-matches (by
acquired place id, rewritten phone, name+location once coordinates are
written, or again by domain+city, which the update preserves). -/
theorem c4_t4_leaf (dist : ℚ → ℚ → ℚ → ℚ → ℚ)
    (nd : Option String → Option String) (db : MatcherDb)
    (parsed : ParsedBusiness) (e : String) (cid : Option String) (t1 t2 : Nat)
    (hdist : ∀ a b, dist a b a b = 0)
    (huniq : ∀ b1 ∈ db.businesses, ∀ b2 ∈ db.businesses,
      b1.id = b2.id → b1 = b2)
    {X : Business}
    (hT1 : (if truthy parsed.googlePlaceId then
        db.businesses.find? fun b => b.googlePlaceId = parsed.googlePlaceId
      else none) = none)
    (ht2 : normalizePhone parsed.phone = none ∨
      ∃ np, normalizePhone parsed.phone = some np ∧
        db.businesses.find? (fun b => b.phone = some np) = none)
    (ht3 : parsed.lat = none ∨
      (∃ plat, parsed.lat = some plat ∧ parsed.lng = none) ∨
      (∃ plat plng, parsed.lat = some plat ∧ parsed.lng = some plng ∧
        (db.businesses.filter fun b =>
            b.normalizedName = normalizeName parsed.name).find?
          (fun c => match c.lat, c.lng with
            | some cl, some cg => dist cl cg plat plng < 31/1000
            | _, _ => false) = none))
    (hcond : truthy (nd parsed.website) = true ∧ truthy parsed.city = true)
    (hf4 : (db.businesses.filter fun b =>
        cityEqCI b.city parsed.city ∧ b.website.isSome).find?
      (fun c => nd c.website = nd parsed.website) = some X) :
    ∀ r1 r2 : BusinessMatch × MatcherDb,
      r1 = findOrCreate dist nd t1 db parsed e cid →
      r2 = findOrCreate dist nd t2 r1.2 parsed e cid →
      r2.1.businessId = r1.1.businessId ∧ r2.1.createdNew = false ∧
      r2.2.nextId = r1.2.nextId ∧
      r2.2.businesses = r1.2.businesses.map (fun b =>
        if b.id = r1.1.businessId then updateLastSeen b parsed e t2 else b) ∧
      (∀ b : Business,
        (updateLastSeen b parsed e t2).firstSeenAt = b.firstSeenAt ∧
        (updateLastSeen b parsed e t2).lastSeenAt = t2) := by
  intro r1 r2 he1 he2
  have e1 := findOrCreate_t4 dist nd t1 db parsed e cid hT1 ht2 ht3 hcond hf4
  have he1' : r1 = (⟨X.id, 80, .websiteDomain⟩,
      updateLastSeenDb db X.id parsed e t1) := he1.trans e1
  have hdb1 : (updateLastSeenDb db X.id parsed e t1).businesses =
      db.businesses.map (fun b =>
        if b.id = X.id then updateLastSeen b parsed e t1 else b) := rfl
  rw [List.find?_filter] at hf4
  obtain ⟨hqX, as, bs, hdec, hask'⟩ := List.find?_eq_some.1 hf4
  have hne : ∀ a ∈ as, a ≠ X := by
    intro a ha heq
    have h := hask' a ha
    rw [heq, hqX] at h
    simp at h
  have hXmem : X ∈ db.businesses := by
    rw [hdec]
    simp
  have hqX' := hqX
  rw [decide_eq_true_eq] at hqX'
  obtain ⟨hfilt, hdom⟩ := hqX'
  rw [decide_eq_true_eq] at hfilt
  obtain ⟨hcity, hsome⟩ := hfilt
  have huweb : nd (updateLastSeen X parsed e t1).website = nd parsed.website ∧
      (updateLastSeen X parsed e t1).website.isSome = true := by
    by_cases htw : truthy parsed.website = true
    · rw [upd_website_pos X e t1 htw]
      refine ⟨rfl, ?_⟩
      cases hw : parsed.website with
      | none => rw [hw] at htw; cases htw
      | some w => rfl
    · rw [upd_website_neg X e t1 (by simpa using htw)]
      exact ⟨by simpa using hdom, hsome⟩
  have hf4'' : ((updateLastSeenDb db X.id parsed e t1).businesses.filter
      fun b => cityEqCI b.city parsed.city ∧ b.website.isSome).find?
    (fun c => nd c.website = nd parsed.website)
      = some (updateLastSeen X parsed e t1) := by
    rw [hdb1, List.find?_filter]
    refine find?_upd_some hdec hne (fun a ha => bool_of_not (hask' a ha))
      ?_ huniq
    rw [decide_eq_true_eq]
    constructor
    · rw [decide_eq_true_eq]
      constructor
      · rw [upd_city]
        exact hcity
      · exact huweb.2
    · rw [huweb.1]
      simp
  by_cases h1c : truthy parsed.googlePlaceId = true
  · have hT1' : db.businesses.find?
        (fun b => b.googlePlaceId = parsed.googlePlaceId) = none := by
      rw [if_pos h1c] at hT1
      exact hT1
    have hf1'' : (updateLastSeenDb db X.id parsed e t1).businesses.find?
        (fun b => b.googlePlaceId = parsed.googlePlaceId)
        = some (updateLastSeen X parsed e t1) := by
      rw [hdb1]
      refine find?_upd_some hdec hne (fun a ha => by
        simpa using List.find?_eq_none.1 hT1' a (by rw [hdec]; simp [ha]))
        ?_ huniq
      show decide ((updateLastSeen X parsed e t1).googlePlaceId
        = parsed.googlePlaceId) = true
      rw [upd_googlePlaceId_pos X e t1 h1c]
      simp
    have e2 := findOrCreate_t1 dist nd t2
      (updateLastSeenDb db X.id parsed e t1) parsed e cid h1c hf1''
    rw [upd_id] at e2
    exact c4_conclude parsed e t2 he1' (by rw [he2, he1']; exact e2)
      fun h => MatchType.noConfusion h
  · have ht1'' : (if truthy parsed.googlePlaceId then
        (updateLastSeenDb db X.id parsed e t1).businesses.find? fun b =>
          b.googlePlaceId = parsed.googlePlaceId
      else none) = none := if_neg h1c
    have hcont : (normalizePhone parsed.phone = none ∨
        ∃ np, normalizePhone parsed.phone = some np ∧
          (updateLastSeenDb db X.id parsed e t1).businesses.find?
            (fun b => b.phone = some np) = none) →
        r2.1.businessId = r1.1.businessId ∧ r2.1.createdNew = false ∧
        r2.2.nextId = r1.2.nextId ∧
        r2.2.businesses = r1.2.businesses.map (fun b =>
          if b.id = r1.1.businessId then updateLastSeen b parsed e t2
          else b) ∧
        (∀ b : Business,
          (updateLastSeen b parsed e t2).firstSeenAt = b.firstSeenAt ∧
          (updateLastSeen b parsed e t2).lastSeenAt = t2) := by
      intro ht2''
      rcases ht3 with hlat | ⟨plat, hlat, hlng⟩ | ⟨plat, plng, hlat, hlng, hf3n⟩
      · have e2 := findOrCreate_t4 dist nd t2
          (updateLastSeenDb db X.id parsed e t1) parsed e cid ht1'' ht2''
          (Or.inl hlat) hcond hf4''
        rw [upd_id] at e2
        exact c4_conclude parsed e t2 he1' (by rw [he2, he1']; exact e2)
          fun h => MatchType.noConfusion h
      · have e2 := findOrCreate_t4 dist nd t2
          (updateLastSeenDb db X.id parsed e t1) parsed e cid ht1'' ht2''
          (Or.inr (Or.inl ⟨plat, hlat, hlng⟩)) hcond hf4''
        rw [upd_id] at e2
        exact c4_conclude parsed e t2 he1' (by rw [he2, he1']; exact e2)
          fun h => MatchType.noConfusion h
      · by_cases hnn : X.normalizedName = normalizeName parsed.name
        · have hf3'' : ((updateLastSeenDb db X.id parsed e t1).businesses.filter
              fun b => b.normalizedName = normalizeName parsed.name).find?
            (fun c => match c.lat, c.lng with
              | some cl, some cg => dist cl cg plat plng < 31/1000
              | _, _ => false) = some (updateLastSeen X parsed e t1) := by
            rw [hdb1, List.find?_filter]
            rw [List.find?_filter] at hf3n
            refine find?_upd_some hdec hne (fun a ha => bool_of_not_eq_true
              (List.find?_eq_none.1 hf3n a (by rw [hdec]; simp [ha]))) ?_ huniq
            rw [decide_eq_true_eq]
            constructor
            · rw [upd_normalizedName]
              simp [hnn]
            · rw [upd_lat_pos X e t1 (by rw [hlat]; rfl) (by rw [hlng]; rfl),
                upd_lng_pos X e t1 (by rw [hlat]; rfl) (by rw [hlng]; rfl),
                hlat, hlng]
              show decide (dist plat plng plat plng < 31/1000) = true
              rw [hdist plat plng]
              norm_num
          have e2 := findOrCreate_t3 dist nd t2
            (updateLastSeenDb db X.id parsed e t1) parsed e cid ht1'' ht2''
            hlat hlng hf3''
          rw [upd_id] at e2
          exact c4_conclude parsed e t2 he1' (by rw [he2, he1']; exact e2)
            fun h => MatchType.noConfusion h
        · have hf3''n : ((updateLastSeenDb db X.id parsed e t1).businesses.filter
              fun b => b.normalizedName = normalizeName parsed.name).find?
            (fun c => match c.lat, c.lng with
              | some cl, some cg => dist cl cg plat plng < 31/1000
              | _, _ => false) = none := by
            rw [hdb1, List.find?_filter]
            rw [List.find?_filter] at hf3n
            refine find?_upd_none (fun b hb => bool_of_not_eq_true
              (List.find?_eq_none.1 hf3n b hb)) ?_
            intro b hb hid
            have hbX : b = X := huniq b hb X hXmem hid
            rw [hbX]
            simp [upd_normalizedName, hnn]
          have e2 := findOrCreate_t4 dist nd t2
            (updateLastSeenDb db X.id parsed e t1) parsed e cid ht1'' ht2''
            (Or.inr (Or.inr ⟨plat, plng, hlat, hlng, hf3''n⟩)) hcond hf4''
          rw [upd_id] at e2
          exact c4_conclude parsed e t2 he1' (by rw [he2, he1']; exact e2)
            fun h => MatchType.noConfusion h
    cases hnp : normalizePhone parsed.phone with
    | none => exact hcont (Or.inl hnp)
    | some np =>
      have hf2none : db.businesses.find? (fun b => b.phone = some np)
          = none := by
        rcases ht2 with h | ⟨np', hnp', hfn⟩
        · rw [hnp] at h
          cases h
        · rw [hnp] at hnp'
          injection hnp' with h'
          rw [← h'] at hfn
          exact hfn
      by_cases hbing : e.startsWith "bing" = true
      · have hf2''none : (updateLastSeenDb db X.id parsed e t1).businesses.find?
            (fun b => b.phone = some np) = none := by
          rw [hdb1]
          refine find?_upd_none (fun b hb => by
            simpa using List.find?_eq_none.1 hf2none b hb) ?_
          intro b hb hid
          have hbX : b = X := huniq b hb X hXmem hid
          rw [hbX]
          show decide ((updateLastSeen X parsed e t1).phone = some np) = false
          rw [upd_phone_bing X e t1 hbing]
          simpa using List.find?_eq_none.1 hf2none X hXmem
        exact hcont (Or.inr ⟨np, hnp, hf2''none⟩)
      · have hup : (updateLastSeen X parsed e t1).phone = some np := by
          rw [upd_phone_nonbing X e t1 (normalizePhone_truthy hnp)
            (by simpa using hbing)]
          exact hnp
        have hf2'' : (updateLastSeenDb db X.id parsed e t1).businesses.find?
            (fun b => b.phone = some np)
            = some (updateLastSeen X parsed e t1) := by
          rw [hdb1]
          refine find?_upd_some hdec hne (fun a ha => by
            simpa using List.find?_eq_none.1 hf2none a (by rw [hdec]; simp [ha]))
            ?_ huniq
          show decide ((updateLastSeen X parsed e t1).phone = some np) = true
          rw [hup]
          simp
        have e2 := findOrCreate_t2 dist nd t2
          (updateLastSeenDb db X.id parsed e t1) parsed e cid ht1'' hnp hf2''
        rw [upd_id] at e2
        exact c4_conclude parsed e t2 he1' (by rw [he2, he1']; exact e2)
          fun h => MatchType.noConfusion h

/-- Resolve-twice, cascade continuation after tiers 1–3 missed. -/
theorem c4_after_t3 (dist : ℚ → ℚ → ℚ → ℚ → ℚ)
    (nd : Option String → Option String) (db : MatcherDb)
    (parsed : ParsedBusiness) (e : String) (cid : Option String) (t1 t2 : Nat)
    (hdist : ∀ a b, dist a b a b = 0)
    (huniq : ∀ b1 ∈ db.businesses, ∀ b2 ∈ db.businesses,
      b1.id = b2.id → b1 = b2)
    (hm : truthy parsed.googlePlaceId = true ∨
      (∃ np, normalizePhone parsed.phone = some np) ∨
      (parsed.lat.isSome = true ∧ parsed.lng.isSome = true) ∨
      (truthy parsed.website = true ∧ truthy (nd parsed.website) = true ∧
        truthy parsed.city = true))
    (hT1 : (if truthy parsed.googlePlaceId then
        db.businesses.find? fun b => b.googlePlaceId = parsed.googlePlaceId
      else none) = none)
    (ht2 : normalizePhone parsed.phone = none ∨
      ∃ np, normalizePhone parsed.phone = some np ∧
        db.businesses.find? (fun b => b.phone = some np) = none)
    (ht3 : parsed.lat = none ∨
      (∃ plat, parsed.lat = some plat ∧ parsed.lng = none) ∨
      (∃ plat plng, parsed.lat = some plat ∧ parsed.lng = some plng ∧
        (db.businesses.filter fun b =>
            b.normalizedName = normalizeName parsed.name).find?
          (fun c => match c.lat, c.lng with
            | some cl, some cg => dist cl cg plat plng < 31/1000
            | _, _ => false) = none)) :
    ∀ r1 r2 : BusinessMatch × MatcherDb,
      r1 = findOrCreate dist nd t1 db parsed e cid →
      r2 = findOrCreate dist nd t2 r1.2 parsed e cid →
      r2.1.businessId = r1.1.businessId ∧ r2.1.createdNew = false ∧
      r2.2.nextId = r1.2.nextId ∧
      r2.2.businesses = r1.2.businesses.map (fun b =>
        if b.id = r1.1.businessId then updateLastSeen b parsed e t2 else b) ∧
      (∀ b : Business,
        (updateLastSeen b parsed e t2).firstSeenAt = b.firstSeenAt ∧
        (updateLastSeen b parsed e t2).lastSeenAt = t2) := by
  by_cases hcond : truthy (nd parsed.website) = true ∧ truthy parsed.city = true
  · cases hf4 : (db.businesses.filter fun b =>
        cityEqCI b.city parsed.city ∧ b.website.isSome).find?
      (fun c => nd c.website = nd parsed.website) with
    | some X =>
      exact c4_t4_leaf dist nd db parsed e cid t1 t2 hdist huniq hT1 ht2 ht3
        hcond hf4
    | none =>
      exact c4_t5_leaf dist nd db parsed e cid t1 t2 hdist hT1 ht2 ht3
        (Or.inr hf4) hm
  · exact c4_t5_leaf dist nd db parsed e cid t1 t2 hdist hT1 ht2 ht3
      (Or.inl hcond) hm

/-- Resolve-twice, cascade continuation after tiers 1–2 missed. -/
theorem c4_after_t2 (dist : ℚ → ℚ → ℚ → ℚ → ℚ)
    (nd : Option String → Option String) (db : MatcherDb)
    (parsed : ParsedBusiness) (e : String) (cid : Option String) (t1 t2 : Nat)
    (hdist : ∀ a b, dist a b a b = 0)
    (huniq : ∀ b1 ∈ db.businesses, ∀ b2 ∈ db.businesses,
      b1.id = b2.id → b1 = b2)
    (hm : truthy parsed.googlePlaceId = true ∨
      (∃ np, normalizePhone parsed.phone = some np) ∨
      (parsed.lat.isSome = true ∧ parsed.lng.isSome = true) ∨
      (truthy parsed.website = true ∧ truthy (nd parsed.website) = true ∧
        truthy parsed.city = true))
    (hT1 : (if truthy parsed.googlePlaceId then
        db.businesses.find? fun b => b.googlePlaceId = parsed.googlePlaceId
      else none) = none)
    (ht2 : normalizePhone parsed.phone = none ∨
      ∃ np, normalizePhone parsed.phone = some np ∧
        db.businesses.find? (fun b => b.phone = some np) = none) :
    ∀ r1 r2 : BusinessMatch × MatcherDb,
      r1 = findOrCreate dist nd t1 db parsed e cid →
      r2 = findOrCreate dist nd t2 r1.2 parsed e cid →
      r2.1.businessId = r1.1.businessId ∧ r2.1.createdNew = false ∧
      r2.2.nextId = r1.2.nextId ∧
      r2.2.businesses = r1.2.businesses.map (fun b =>
        if b.id = r1.1.businessId then updateLastSeen b parsed e t2 else b) ∧
      (∀ b : Business,
        (updateLastSeen b parsed e t2).firstSeenAt = b.firstSeenAt ∧
        (updateLastSeen b parsed e t2).lastSeenAt = t2) := by
  cases hlat : parsed.lat with
  | some plat =>
    cases hlng : parsed.lng with
    | some plng =>
      cases hf3 : (db.businesses.filter fun b =>
          b.normalizedName = normalizeName parsed.name).find?
        (fun c => match c.lat, c.lng with
          | some cl, some cg => dist cl cg plat plng < 31/1000
          | _, _ => false) with
      | some X =>
        exact c4_t3_leaf dist nd db parsed e cid t1 t2 hdist huniq hT1 ht2
          hlat hlng hf3
      | none =>
        exact c4_after_t3 dist nd db parsed e cid t1 t2 hdist huniq hm hT1 ht2
          (Or.inr (Or.inr ⟨plat, plng, hlat, hlng, hf3⟩))
    | none =>
      exact c4_after_t3 dist nd db parsed e cid t1 t2 hdist huniq hm hT1 ht2
        (Or.inr (Or.inl ⟨plat, hlat, hlng⟩))
  | none =>
    exact c4_after_t3 dist nd db parsed e cid t1 t2 hdist huniq hm hT1 ht2
      (Or.inl hlat)

/-- C4 (amended): resolving the same parsed business twice in succession with
the same engine and category yields the same `businessId` both times, with
`createdNew = false`, an unchanged `firstSeenAt` and `lastSeenAt` advanced to
the second call's time — provided the parsed business carries at least one
matchable identifier (a truthy Google Place ID, a normalizable phone number,
coordinates, or a truthy website whose normalized domain is truthy together
with a truthy city), stored row ids are unique, and the distance oracle gives
zero at identical coordinates. The second call allocates nothing (`nextId`
unchanged) and rewrites only the matched row through `updateLastSeen`, which
keeps `firstSeenAt` and sets `lastSeenAt` to the new time. (Without a
matchable identifier the original claim fails: see the counterexample — a
name-only business is created anew by each call.) -/
theorem c4_resolve_twice_stable (dist : ℚ → ℚ → ℚ → ℚ → ℚ)
    (normDomain : Option String → Option String) (db : MatcherDb)
    (parsed : ParsedBusiness) (engineId : String) (categoryId : Option String)
    (t1 t2 : Nat)
    (hdist : ∀ a b, dist a b a b = 0)
    (huniq : ∀ b1 ∈ db.businesses, ∀ b2 ∈ db.businesses,
      b1.id = b2.id → b1 = b2)
    (hm : truthy parsed.googlePlaceId = true ∨
      (∃ np, normalizePhone parsed.phone = some np) ∨
      (parsed.lat.isSome = true ∧ parsed.lng.isSome = true) ∨
      (truthy parsed.website = true ∧
        truthy (normDomain parsed.website) = true ∧
        truthy parsed.city = true)) :
    ∀ r1 r2 : BusinessMatch × MatcherDb,
      r1 = findOrCreate dist normDomain t1 db parsed engineId categoryId →
      r2 = findOrCreate dist normDomain t2 r1.2 parsed engineId categoryId →
      r2.1.businessId = r1.1.businessId ∧ r2.1.createdNew = false ∧
      r2.2.nextId = r1.2.nextId ∧
      r2.2.businesses = r1.2.businesses.map (fun b =>
        if b.id = r1.1.businessId then updateLastSeen b parsed engineId t2
        else b) ∧
      (∀ b : Business,
        (updateLastSeen b parsed engineId t2).firstSeenAt = b.firstSeenAt ∧
        (updateLastSeen b parsed engineId t2).lastSeenAt = t2) := by
  cases hT1 : (if truthy parsed.googlePlaceId then
      db.businesses.find? fun b => b.googlePlaceId = parsed.googlePlaceId
    else none) with
  | some X =>
    have h1c : truthy parsed.googlePlaceId = true := by
      by_contra h
      rw [if_neg h] at hT1
      cases hT1
    have hf1 : db.businesses.find?
        (fun b => b.googlePlaceId = parsed.googlePlaceId) = some X := by
      rw [if_pos h1c] at hT1
      exact hT1
    exact c4_t1_leaf dist normDomain db parsed engineId categoryId t1 t2
      huniq h1c hf1
  | none =>
    cases hnp : normalizePhone parsed.phone with
    | some np =>
      cases hf2 : db.businesses.find? (fun b => b.phone = some np) with
      | some X =>
        exact c4_t2_leaf dist normDomain db parsed engineId categoryId t1 t2
          huniq hT1 hnp hf2
      | none =>
        exact c4_after_t2 dist normDomain db parsed engineId categoryId t1 t2
          hdist huniq hm hT1 (Or.inr ⟨np, hnp, hf2⟩)
    | none =>
      exact c4_after_t2 dist normDomain db parsed engineId categoryId t1 t2
        hdist huniq hm hT1 (Or.inl hnp)

/-- Witness for C4 (amended): a fresh database, a parsed business carrying a
Google Place ID, and two resolves at times 1 and 2. -/
theorem c4_resolve_twice_stable_witness :
    (∀ a b : ℚ, (fun _ _ _ _ => (0 : ℚ)) a b a b = 0) ∧
    (∀ b1 ∈ (MatcherDb.mk [] 0).businesses,
      ∀ b2 ∈ (MatcherDb.mk [] 0).businesses, b1.id = b2.id → b1 = b2) ∧
    (truthy ({ name := "Acme" , googlePlaceId := some "g1" } :
        ParsedBusiness).googlePlaceId = true) ∧
    (∀ r1 r2 : BusinessMatch × MatcherDb,
      r1 = findOrCreate (fun _ _ _ _ => 0) (fun x => x) 1 (MatcherDb.mk [] 0)
        { name := "Acme" , googlePlaceId := some "g1" } "google_search" none →
      r2 = findOrCreate (fun _ _ _ _ => 0) (fun x => x) 2 r1.2
        { name := "Acme" , googlePlaceId := some "g1" } "google_search" none →
      r2.1.businessId = r1.1.businessId ∧ r2.1.createdNew = false ∧
      r2.2.nextId = r1.2.nextId ∧
      r2.2.businesses = r1.2.businesses.map (fun b =>
        if b.id = r1.1.businessId then
          updateLastSeen b { name := "Acme" , googlePlaceId := some "g1" }
            "google_search" 2
        else b) ∧
      (∀ b : Business,
        (updateLastSeen b { name := "Acme" , googlePlaceId := some "g1" }
          "google_search" 2).firstSeenAt = b.firstSeenAt ∧
        (updateLastSeen b { name := "Acme" , googlePlaceId := some "g1" }
          "google_search" 2).lastSeenAt = 2)) :=
  ⟨fun a b => rfl,
   fun b1 h1 => absurd h1 (List.not_mem_nil b1),
   by decide,
   c4_resolve_twice_stable (fun _ _ _ _ => 0) (fun x => x) (MatcherDb.mk [] 0)
     { name := "Acme" , googlePlaceId := some "g1" } "google_search" none 1 2
     (fun a b => rfl)
     (fun b1 h1 => absurd h1 (List.not_mem_nil b1))
     (Or.inl (by decide))⟩

end GeekRankRadar
